import Mathlib

/-!
Verification development for the mcp_git repository (src/github_api.py, src/main.py).

The operations of `github_api.py` are embedded as pure Lean functions from an
abstract remote store (the GitHub REST API, modelled by its responses) to the
pair of (list of remote calls issued, returned result envelope).  The byte-level
codecs used by the code (`base64.b64encode`/`b64decode` and UTF-8
encode/decode) are implemented as executable Lean functions and their
round-trip properties are proved.
-/

namespace McpGit

/-! ### Base64, as used via Python `base64.b64encode` / `base64.b64decode` -/

/-- The base64 alphabet: sextet value to ASCII code. -/
def b64alpha (s : Nat) : Nat :=
  if s < 26 then 65 + s
  else if s < 52 then 71 + s
  else if s < 62 then s - 4
  else if s = 62 then 43
  else 47

/-- Inverse alphabet: ASCII code to sextet value, `none` off the alphabet. -/
def b64sextet (c : Nat) : Option Nat :=
  if 65 ≤ c ∧ c ≤ 90 then some (c - 65)
  else if 97 ≤ c ∧ c ≤ 122 then some (c - 71)
  else if 48 ≤ c ∧ c ≤ 57 then some (c + 4)
  else if c = 43 then some 62
  else if c = 47 then some 63
  else none

/-- `base64.b64encode`: bytes to ASCII codes, with `=` (61) padding. -/
def b64encode : List Nat → List Nat
  | [] => []
  | [a] => [b64alpha (a / 4), b64alpha (a % 4 * 16), 61, 61]
  | [a, b] => [b64alpha (a / 4), b64alpha (a % 4 * 16 + b / 16), b64alpha (b % 16 * 4), 61]
  | a :: b :: c :: rest =>
      b64alpha (a / 4) :: b64alpha (a % 4 * 16 + b / 16) ::
      b64alpha (b % 16 * 4 + c / 64) :: b64alpha (c % 64) :: b64encode rest

/-- `base64.b64decode`: ASCII codes back to bytes. -/
def b64decode : List Nat → Option (List Nat)
  | [] => some []
  | c1 :: c2 :: c3 :: c4 :: rest => do
      let s1 ← b64sextet c1
      let s2 ← b64sextet c2
      if c3 = 61 then
        if c4 = 61 ∧ rest = [] then some [s1 * 4 + s2 / 16] else none
      else do
        let s3 ← b64sextet c3
        if c4 = 61 then
          if rest = [] then some [s1 * 4 + s2 / 16, s2 % 16 * 16 + s3 / 4] else none
        else do
          let s4 ← b64sextet c4
          let bs ← b64decode rest
          some ((s1 * 4 + s2 / 16) :: (s2 % 16 * 16 + s3 / 4) :: (s3 % 4 * 64 + s4) :: bs)
  | _ => none

theorem b64sextet_b64alpha : ∀ s : Nat, s < 64 → b64sextet (b64alpha s) = some s := by
  decide

theorem b64alpha_ne_pad : ∀ s : Nat, s < 64 → b64alpha s ≠ 61 := by
  decide

/-- Decoding inverts encoding on byte lists. -/
theorem b64decode_b64encode (bs : List Nat) (h : ∀ b ∈ bs, b < 256) :
    b64decode (b64encode bs) = some bs := by
  induction bs using b64encode.induct with
  | case1 => rfl
  | case2 a =>
      have ha : a < 256 := h a (by simp)
      have h1 : a / 4 < 64 := by omega
      have h2 : a % 4 * 16 < 64 := by omega
      simp [b64encode, b64decode, b64sextet_b64alpha _ h1, b64sextet_b64alpha _ h2]
      omega
  | case3 a b =>
      have ha : a < 256 := h a (by simp)
      have hb : b < 256 := h b (by simp)
      have h1 : a / 4 < 64 := by omega
      have h2 : a % 4 * 16 + b / 16 < 64 := by omega
      have h3 : b % 16 * 4 < 64 := by omega
      simp [b64encode, b64decode, b64sextet_b64alpha _ h1, b64sextet_b64alpha _ h2,
        b64sextet_b64alpha _ h3, b64alpha_ne_pad _ h3]
      omega
  | case4 a b c rest ih =>
      have ha : a < 256 := h a (by simp)
      have hb : b < 256 := h b (by simp)
      have hc : c < 256 := h c (by simp)
      have hrest : ∀ x ∈ rest, x < 256 := fun x hx => h x (by simp [hx])
      have h1 : a / 4 < 64 := by omega
      have h2 : a % 4 * 16 + b / 16 < 64 := by omega
      have h3 : b % 16 * 4 + c / 64 < 64 := by omega
      have h4 : c % 64 < 64 := by omega
      simp [b64encode, b64decode, b64sextet_b64alpha _ h1, b64sextet_b64alpha _ h2,
        b64sextet_b64alpha _ h3, b64sextet_b64alpha _ h4,
        b64alpha_ne_pad _ h3, b64alpha_ne_pad _ h4, ih hrest]
      omega

/-! ### UTF-8, as used via Python `str.encode("utf-8")` / `bytes.decode("utf-8")` -/

/-- A Unicode scalar value: what a Python `str` character delivered over JSON
(and a Lean `Char`) may hold. -/
def ScalarValue (c : Nat) : Prop := c < 1114112 ∧ ¬(55296 ≤ c ∧ c < 57344)

/-- UTF-8 encoding of one scalar value. -/
def utf8EncodeChar (c : Nat) : List Nat :=
  if c < 128 then [c]
  else if c < 2048 then [192 + c / 64, 128 + c % 64]
  else if c < 65536 then [224 + c / 4096, 128 + c / 64 % 64, 128 + c % 64]
  else [240 + c / 262144, 128 + c / 4096 % 64, 128 + c / 64 % 64, 128 + c % 64]

/-- `str.encode("utf-8")` on a sequence of code points. -/
def utf8Encode (cs : List Nat) : List Nat := (cs.map utf8EncodeChar).flatten

/-- Range of the first continuation byte after a 3-byte leader (excludes
overlong forms after 224 and surrogates after 237). -/
def utf8Lo3 (b1 : Nat) : Nat := if b1 = 224 then 160 else 128

def utf8Hi3 (b1 : Nat) : Nat := if b1 = 237 then 160 else 192

/-- Range of the first continuation byte after a 4-byte leader (excludes
overlong forms after 240 and values beyond U+10FFFF after 244). -/
def utf8Lo4 (b1 : Nat) : Nat := if b1 = 240 then 144 else 128

def utf8Hi4 (b1 : Nat) : Nat := if b1 = 244 then 144 else 192

/-- Byte-at-a-time strict UTF-8 decoder (the semantics of CPython
`bytes.decode("utf-8")`: overlong forms, surrogates, out-of-range leaders and
truncated sequences are rejected).  The state is `none` between characters, or
`some (acc, need, lo, hi)` inside a multi-byte sequence: accumulated value,
continuation bytes still needed, and the admissible range of the next byte. -/
def utf8Run : Option (Nat × Nat × Nat × Nat) → List Nat → Option (List Nat)
  | none, [] => some []
  | some _, [] => none
  | none, b :: bs =>
      if b < 128 then (utf8Run none bs).map (fun cs => b :: cs)
      else if b < 194 then none
      else if b < 224 then utf8Run (some (b - 192, 1, 128, 192)) bs
      else if b < 240 then utf8Run (some (b - 224, 2, utf8Lo3 b, utf8Hi3 b)) bs
      else if b < 245 then utf8Run (some (b - 240, 3, utf8Lo4 b, utf8Hi4 b)) bs
      else none
  | some (acc, need, lo, hi), b :: bs =>
      if lo ≤ b ∧ b < hi then
        if need = 1 then (utf8Run none bs).map (fun cs => (acc * 64 + (b - 128)) :: cs)
        else utf8Run (some (acc * 64 + (b - 128), need - 1, 128, 192)) bs
      else none

/-- `bytes.decode("utf-8")`. -/
def utf8Decode (l : List Nat) : Option (List Nat) := utf8Run none l

/-- UTF-8 encoded bytes are bytes. -/
theorem utf8EncodeChar_lt_256 (c : Nat) (hc : ScalarValue c) :
    ∀ b ∈ utf8EncodeChar c, b < 256 := by
  obtain ⟨h1, _⟩ := hc
  intro b hb
  unfold utf8EncodeChar at hb
  split at hb
  · simp only [List.mem_singleton] at hb; omega
  · split at hb
    · simp only [List.mem_cons, List.mem_singleton, List.not_mem_nil, or_false] at hb
      rcases hb with hb | hb <;> omega
    · split at hb
      · simp only [List.mem_cons, List.mem_singleton, List.not_mem_nil, or_false] at hb
        rcases hb with hb | hb | hb <;> omega
      · simp only [List.mem_cons, List.mem_singleton, List.not_mem_nil, or_false] at hb
        rcases hb with hb | hb | hb | hb <;> omega

/-- Decoding one encoded scalar value off the front of a byte stream. -/
theorem utf8Run_encodeChar (c : Nat) (hc : ScalarValue c) (rest : List Nat) :
    utf8Run none (utf8EncodeChar c ++ rest) = (utf8Run none rest).map (fun cs => c :: cs) := by
  obtain ⟨h1, h2⟩ := hc
  unfold utf8EncodeChar
  by_cases ha : c < 128
  · simp only [if_pos ha, List.cons_append, List.nil_append]
    rw [utf8Run, if_pos ha]
  · by_cases hb : c < 2048
    · simp only [if_neg ha, if_pos hb, List.cons_append, List.nil_append]
      rw [utf8Run, if_neg (by omega), if_neg (by omega), if_pos (by omega)]
      rw [utf8Run, if_pos (by constructor <;> omega), if_pos rfl]
      have e : (192 + c / 64 - 192) * 64 + (128 + c % 64 - 128) = c := by omega
      rw [e]
    · by_cases hcc : c < 65536
      · simp only [if_neg ha, if_neg hb, if_pos hcc, List.cons_append, List.nil_append]
        rw [utf8Run, if_neg (by omega), if_neg (by omega), if_neg (by omega), if_pos (by omega)]
        rw [utf8Run, if_pos (by
          constructor
          · unfold utf8Lo3; split <;> omega
          · unfold utf8Hi3; split <;> omega)]
        rw [if_neg (by omega)]
        rw [utf8Run, if_pos (by constructor <;> omega), if_pos rfl]
        have e : ((224 + c / 4096 - 224) * 64 + (128 + c / 64 % 64 - 128)) * 64 +
            (128 + c % 64 - 128) = c := by omega
        rw [e]
      · simp only [if_neg ha, if_neg hb, if_neg hcc, List.cons_append, List.nil_append]
        rw [utf8Run, if_neg (by omega), if_neg (by omega), if_neg (by omega), if_neg (by omega),
          if_pos (by omega)]
        rw [utf8Run, if_pos (by
          constructor
          · unfold utf8Lo4; split <;> omega
          · unfold utf8Hi4; split <;> omega)]
        rw [if_neg (by omega)]
        rw [utf8Run, if_pos (by constructor <;> omega), if_neg (by omega)]
        rw [utf8Run, if_pos (by constructor <;> omega), if_pos rfl]
        have e : (((240 + c / 262144 - 240) * 64 + (128 + c / 4096 % 64 - 128)) * 64 +
            (128 + c / 64 % 64 - 128)) * 64 + (128 + c % 64 - 128) = c := by omega
        rw [e]

/-- Decoding inverts encoding on sequences of scalar values. -/
theorem utf8Decode_utf8Encode (cs : List Nat) (h : ∀ c ∈ cs, ScalarValue c) :
    utf8Decode (utf8Encode cs) = some cs := by
  induction cs with
  | nil => rfl
  | cons c cs ih =>
      have hc : ScalarValue c := h c (by simp)
      have hcs : ∀ x ∈ cs, ScalarValue x := fun x hx => h x (by simp [hx])
      have he : utf8Encode (c :: cs) = utf8EncodeChar c ++ utf8Encode cs := by
        simp [utf8Encode]
      rw [utf8Decode, he, utf8Run_encodeChar c hc]
      rw [show utf8Run none (utf8Encode cs) = utf8Decode (utf8Encode cs) from rfl, ih hcs]
      rfl

/-- `conteudo.encode("utf-8")` on a Lean string (a sequence of scalar values). -/
def pyEncodeUtf8 (s : String) : List Nat := utf8Encode (s.data.map Char.toNat)

/-- Rebuild a Python string from decoded code points. -/
def stringOfCodepoints (cs : List Nat) : String := String.mk (cs.map Char.ofNat)

theorem scalarValue_char (c : Char) : ScalarValue c.toNat := by
  have h := c.valid
  have e : c.toNat = c.val.toNat := rfl
  rcases h with h | h
  · exact ⟨by omega, by omega⟩
  · obtain ⟨hh1, hh2⟩ := h
    exact ⟨by omega, by omega⟩

/-- Full UTF-8 round trip at the string level. -/
theorem utf8_string_roundtrip (s : String) :
    (utf8Decode (pyEncodeUtf8 s)).map stringOfCodepoints = some s := by
  rw [pyEncodeUtf8, utf8Decode_utf8Encode _ (by
    intro c hc
    simp only [List.mem_map] at hc
    obtain ⟨ch, _, rfl⟩ := hc
    exact scalarValue_char ch)]
  show some (stringOfCodepoints (s.data.map Char.toNat)) = some s
  rw [stringOfCodepoints]
  congr 1
  rw [List.map_map]
  have e : (Char.ofNat ∘ Char.toNat) = id := by
    funext ch
    simp [Char.ofNat_toNat]
  rw [e, List.map_id]

theorem pyEncodeUtf8_lt_256 (s : String) : ∀ b ∈ pyEncodeUtf8 s, b < 256 := by
  intro b hb
  rw [pyEncodeUtf8, utf8Encode] at hb
  rw [List.mem_flatten] at hb
  obtain ⟨l, hl, hbl⟩ := hb
  rw [List.mem_map] at hl
  obtain ⟨cp, hcp, rfl⟩ := hl
  rw [List.mem_map] at hcp
  obtain ⟨ch, _, rfl⟩ := hcp
  exact utf8EncodeChar_lt_256 _ (scalarValue_char ch) b hbl

/-! ### Data model: payloads sent to, and responses read from, the remote store
(`src/github_api.py`) -/

/-- Repository metadata, as consumed from `GET /repos/{owner}/{repo}`:
the code only reads `json().get("default_branch", "main")`. -/
structure RepoInfo where
  default_branch : Option String
  deriving DecidableEq

/-- A file object served by `GET /repos/{o}/{r}/contents/{path}`:
the fields the code reads (`type`, `name`, `path`, `size`, `sha`, `content`,
`html_url`).  `content` is the base64 text served by the store, as ASCII codes. -/
structure FileInfo where
  type : String
  name : String
  path : String
  size : Nat
  sha : String
  content : List Nat
  html_url : String
  deriving DecidableEq

/-- One entry of a directory listing served by the contents endpoint. -/
structure ItemInfo where
  name : String
  path : String
  type : String
  size : Nat
  html_url : String
  sha : String
  deriving DecidableEq

/-- The contents endpoint serves either a single file object or a listing. -/
inductive ContentsResp where
  | arquivo (f : FileInfo)
  | itens (l : List ItemInfo)
  deriving DecidableEq

/-- Response consumed from the file-update `PUT` (`result.commit`, `result.content`). -/
structure PutResponse where
  commit_sha : String
  commit_url : String
  content_sha : String
  content_url : String
  deriving DecidableEq

/-- Response consumed from the file `DELETE` (`result.commit`). -/
structure DeleteResponse where
  commit_sha : String
  commit_url : String
  deriving DecidableEq

/-- A commit object served by `GET /git/commits/{sha}`: the code reads
`sha` and `tree.sha`. -/
structure CommitObj where
  sha : String
  tree_sha : String
  deriving DecidableEq

/-- Payload of the contents `PUT` (lines 294-302 of `github_api.py`):
`sha` is present only when updating an existing file. -/
structure PutData where
  message : String
  content : List Nat
  branch : String
  sha : Option String
  deriving DecidableEq

/-- One entry of the tree-creation payload (lines 459-464). -/
structure TreeItem where
  path : String
  mode : String
  type : String
  content : String
  deriving DecidableEq

/-- Payload of `POST /git/trees` (lines 445-448). -/
structure TreeData where
  base_tree : String
  tree : List TreeItem
  deriving DecidableEq

/-- Payload of `POST /git/commits` (lines 476-480). -/
structure CommitData where
  message : String
  parents : List String
  tree : String
  deriving DecidableEq

/-- Payload of `PATCH /git/refs/heads/{branch}` (lines 489-492). -/
structure RefData where
  sha : String
  force : Bool
  deriving DecidableEq

/-- Payload of the contents `DELETE` (lines 372-376). -/
structure DeleteData where
  message : String
  sha : String
  branch : String
  deriving DecidableEq

/-- Payload of `POST /git/refs` (lines 606-609). -/
structure NewRefData where
  ref : String
  sha : String
  deriving DecidableEq

/-- A remote call issued by the code, together with the payload it carried. -/
inductive Call where
  | getRepoInfo (owner repo : String)
  | getContents (owner repo path branch : String)
  | putContents (owner repo path : String) (d : PutData)
  | deleteContents (owner repo path : String) (d : DeleteData)
  | getRef (owner repo branch : String)
  | getCommit (owner repo sha : String)
  | postTree (owner repo : String) (d : TreeData)
  | postCommit (owner repo : String) (d : CommitData)
  | patchRef (owner repo branch : String) (d : RefData)
  | postRef (owner repo : String) (d : NewRefData)
  deriving DecidableEq

/-- The remote store, modelled by the response each endpoint would give at the
moment of the call.  `Except.error e` models a response on which
`raise_for_status()` raises an exception rendered as the string `e`. -/
structure Store where
  repoInfo : Except String RepoInfo
  contents : String → String → Except String ContentsResp
  putFile : String → PutData → Except String PutResponse
  deleteFile : String → DeleteData → Except String DeleteResponse
  refHead : String → Except String String
  commitObj : String → Except String CommitObj
  createTree : TreeData → Except String String
  createCommit : CommitData → Except String String
  updateRef : String → RefData → Except String Unit
  createRef : NewRefData → Except String Unit

/-! ### The operations of `src/github_api.py` -/

/-- Python truthiness of an optional string argument (`if not branch:`):
`None` and `""` are falsy. -/
def truthy : Option String → Bool
  | none => false
  | some s => !(s == "")

/-- The branch-resolution block repeated at the top of `listar_arquivos`,
`obter_conteudo_arquivo`, `atualizar_arquivo`, `criar_commit_multiplo` and
`criar_branch`: if no branch was supplied, fetch the repository metadata and
use `json().get("default_branch", "main")`. -/
def resolverBranch (store : Store) (repo_owner repo_name : String) (branch : Option String) :
    List Call × Except String String :=
  if truthy branch then ([], Except.ok (branch.getD ""))
  else ([Call.getRepoInfo repo_owner repo_name],
    match store.repoInfo with
    | Except.error e => Except.error e
    | Except.ok info => Except.ok (info.default_branch.getD "main"))

/-- Exception text for `'list' object has no attribute 'get'`. -/
def attrErroMsg : String := "\x27list\x27 object has no attribute \x27get\x27"

/-- Exception text for a `binascii` base64 failure. -/
def binasciiErroMsg : String := "Invalid base64-encoded string"

/-- Exception text for a `UnicodeDecodeError`. -/
def unicodeErroMsg : String :=
  "\x27utf-8\x27 codec can\x27t decode byte"

/-- Result dict of `obter_conteudo_arquivo`. -/
inductive ObterResultado where
  | ok (nome caminho : String) (tamanho : Nat) (sha conteudo url branch : String)
  | falha (mensagem : String)
  deriving DecidableEq

/-- The keys of the returned dict, straight from the dict literals in the code. -/
def ObterResultado.chaves : ObterResultado → List String
  | .ok .. => ["sucesso", "mensagem", "nome", "caminho", "tamanho", "sha", "conteudo", "url",
      "branch"]
  | .falha _ => ["sucesso", "mensagem"]

def ObterResultado.sucesso : ObterResultado → Bool
  | .ok .. => true
  | .falha _ => false

/-- `obter_conteudo_arquivo` (lines 185-242): resolve the branch if absent,
`GET` the contents, require a file object, base64-decode and UTF-8-decode the
served content.  Any raised exception is caught and returned as a failure dict. -/
def obter_conteudo_arquivo (store : Store) (repo_owner repo_name path : String)
    (branch : Option String) : List Call × ObterResultado :=
  match resolverBranch store repo_owner repo_name branch with
  | (calls, Except.error e) =>
      (calls, ObterResultado.falha ("Erro ao obter conteúdo do arquivo: " ++ e))
  | (calls, Except.ok b) =>
    let calls := calls ++ [Call.getContents repo_owner repo_name path b]
    match store.contents path b with
    | Except.error e =>
        (calls, ObterResultado.falha ("Erro ao obter conteúdo do arquivo: " ++ e))
    | Except.ok (ContentsResp.itens _) =>
        (calls, ObterResultado.falha ("Erro ao obter conteúdo do arquivo: " ++ attrErroMsg))
    | Except.ok (ContentsResp.arquivo f) =>
        if f.type ≠ "file" then
          (calls, ObterResultado.falha ("O caminho \x27" ++ path ++ "\x27 não é um arquivo"))
        else
          match b64decode f.content with
          | none =>
              (calls, ObterResultado.falha ("Erro ao obter conteúdo do arquivo: " ++
                binasciiErroMsg))
          | some bytes =>
            match utf8Decode bytes with
            | none =>
                (calls, ObterResultado.falha ("Erro ao obter conteúdo do arquivo: " ++
                  unicodeErroMsg))
            | some cps =>
                (calls, ObterResultado.ok f.name f.path f.size f.sha (stringOfCodepoints cps)
                  f.html_url b)

/-- Result dict of `listar_arquivos`. -/
inductive ListarResultado where
  | ok (mensagem branch : String) (itens : List ItemInfo)
  | falha (mensagem : String)
  deriving DecidableEq

def ListarResultado.chaves : ListarResultado → List String
  | .ok .. => ["sucesso", "mensagem", "branch", "itens"]
  | .falha _ => ["sucesso", "mensagem"]

/-- Single file objects are wrapped into a one-element listing (lines 156-157). -/
def comoLista : ContentsResp → List ItemInfo
  | ContentsResp.arquivo f => [⟨f.name, f.path, f.type, f.size, f.html_url, f.sha⟩]
  | ContentsResp.itens l => l

/-- `listar_arquivos` (lines 125-183). -/
def listar_arquivos (store : Store) (repo_owner repo_name path : String)
    (branch : Option String) : List Call × ListarResultado :=
  match resolverBranch store repo_owner repo_name branch with
  | (calls, Except.error e) => (calls, ListarResultado.falha ("Erro ao listar arquivos: " ++ e))
  | (calls, Except.ok b) =>
    let calls := calls ++ [Call.getContents repo_owner repo_name path b]
    match store.contents path b with
    | Except.error e => (calls, ListarResultado.falha ("Erro ao listar arquivos: " ++ e))
    | Except.ok resp =>
        let itens := comoLista resp
        (calls, ListarResultado.ok
          ("Encontrados " ++ toString itens.length ++ " itens no caminho \x27" ++ path ++ "\x27")
          b itens)

/-- Python `str.split(sep)` for a one-character separator. -/
def splitOnChar (sep : Char) : List Char → List (List Char)
  | [] => [[]]
  | c :: cs =>
      let r := splitOnChar sep cs
      if c = sep then [] :: r
      else
        match r with
        | [] => [[c]]
        | h :: t => (c :: h) :: t

/-- Python `path.split("/")[-1]`. -/
def ultimoComponente (path : String) : String :=
  String.mk ((splitOnChar (Char.ofNat 47) path.data).getLastD [])

/-- Result dict of `atualizar_arquivo`. -/
inductive AtualizarResultado where
  | ok (mensagem commit_sha commit_url arquivo_nome arquivo_caminho arquivo_sha
      arquivo_url : String)
  | falha (mensagem : String)
  deriving DecidableEq

def AtualizarResultado.chaves : AtualizarResultado → List String
  | .ok .. => ["sucesso", "mensagem", "commit", "arquivo"]
  | .falha _ => ["sucesso", "mensagem"]

def AtualizarResultado.sucesso : AtualizarResultado → Bool
  | .ok .. => true
  | .falha _ => false

/-- Lines 276-284 of `atualizar_arquivo`: if no `sha` was supplied (Python
truthiness), read the file once and keep its `sha` when that read succeeds;
otherwise keep the caller value. -/
def shaLookup (store : Store) (repo_owner repo_name path b : String)
    (sha : Option String) : List Call × Option String :=
  if truthy sha then ([], sha)
  else
    match obter_conteudo_arquivo store repo_owner repo_name path (some b) with
    | (c2, ObterResultado.ok _ _ _ fsha _ _ _) => (c2, some fsha)
    | (c2, ObterResultado.falha _) => (c2, sha)

/-- `atualizar_arquivo` (lines 244-333): resolve the branch if absent; resolve
the `sha` (see `shaLookup`); base64-encode the UTF-8 bytes of the content;
`PUT` with the `sha` field present only if the final `sha` value is truthy. -/
def atualizar_arquivo (store : Store) (repo_owner repo_name path conteudo mensagem_commit : String)
    (branch : Option String) (sha : Option String) : List Call × AtualizarResultado :=
  match resolverBranch store repo_owner repo_name branch with
  | (calls, Except.error e) =>
      (calls, AtualizarResultado.falha ("Erro ao atualizar arquivo: " ++ e))
  | (calls, Except.ok b) =>
    match shaLookup store repo_owner repo_name path b sha with
    | (c2, sha2) =>
      let content_base64 := b64encode (pyEncodeUtf8 conteudo)
      let d : PutData :=
        { message := mensagem_commit, content := content_base64, branch := b,
          sha := if truthy sha2 then sha2 else none }
      let calls := calls ++ c2 ++ [Call.putContents repo_owner repo_name path d]
      match store.putFile path d with
      | Except.error e =>
          (calls, AtualizarResultado.falha ("Erro ao atualizar arquivo: " ++ e))
      | Except.ok r =>
          let operacao := if truthy sha2 then "atualizado" else "criado"
          (calls, AtualizarResultado.ok
            ("Arquivo \x27" ++ path ++ "\x27 " ++ operacao ++ " com sucesso")
            r.commit_sha r.commit_url (ultimoComponente path) path
            r.content_sha r.content_url)

/-- Result dict of `excluir_arquivo`.  A failed preliminary read returns the
read\x27s own failure dict unchanged (line 360: `return file_info`). -/
inductive ExcluirResultado where
  | ok (mensagem commit_sha commit_url : String)
  | falha (mensagem : String)
  deriving DecidableEq

def ExcluirResultado.chaves : ExcluirResultado → List String
  | .ok .. => ["sucesso", "mensagem", "commit"]
  | .falha _ => ["sucesso", "mensagem"]

/-- `excluir_arquivo` (lines 335-398): read the file first (this also resolves
the branch), abort returning the read\x27s failure dict if it failed, then
`DELETE` with the `sha` obtained by the read. -/
def excluir_arquivo (store : Store) (repo_owner repo_name path mensagem_commit : String)
    (branch : Option String) : List Call × ExcluirResultado :=
  match obter_conteudo_arquivo store repo_owner repo_name path branch with
  | (c1, ObterResultado.falha m) => (c1, ExcluirResultado.falha m)
  | (c1, ObterResultado.ok _ _ _ fsha _ _ fbranch) =>
    let b := if truthy branch then branch.getD "" else fbranch
    let d : DeleteData := { message := mensagem_commit, sha := fsha, branch := b }
    let calls := c1 ++ [Call.deleteContents repo_owner repo_name path d]
    match store.deleteFile path d with
    | Except.error e => (calls, ExcluirResultado.falha ("Erro ao excluir arquivo: " ++ e))
    | Except.ok r =>
        (calls, ExcluirResultado.ok ("Arquivo \x27" ++ path ++ "\x27 excluído com sucesso")
          r.commit_sha r.commit_url)

/-- One entry of the `alteracoes` argument of `criar_commit_multiplo`:
a dict with `path` and `conteudo`. -/
structure Alteracao where
  path : String
  conteudo : String
  deriving DecidableEq

/-- Result dict of `criar_commit_multiplo`. -/
inductive CommitMultiploResultado where
  | ok (mensagem commit_sha commit_url commit_mensagem : String)
      (arquivos_alterados : List String)
  | falha (mensagem : String)
  deriving DecidableEq

def CommitMultiploResultado.chaves : CommitMultiploResultado → List String
  | .ok .. => ["sucesso", "mensagem", "commit", "arquivos_alterados"]
  | .falha _ => ["sucesso", "mensagem"]

def CommitMultiploResultado.sucesso : CommitMultiploResultado → Bool
  | .ok .. => true
  | .falha _ => false

/-- The tree entry built for one change (lines 459-464): regular-file mode,
inline content.  (Lines 455-457 also compute a base64 rendering of the content
that the code then never uses.) -/
def itemDaAlteracao (a : Alteracao) : TreeItem :=
  { path := a.path, mode := "100644", type := "blob", content := a.conteudo }

/-- `criar_commit_multiplo` (lines 400-513): resolve the branch if absent, read
the branch ref, read the head commit object, create one tree (based on the head
commit\x27s tree, one entry per change), create one commit whose parent is the
head commit object\x27s `sha`, then conditionally update the ref with
`force = False`.  The change list is never validated. -/
def criar_commit_multiplo (store : Store) (repo_owner repo_name mensagem_commit : String)
    (alteracoes : List Alteracao) (branch : Option String) :
    List Call × CommitMultiploResultado :=
  match resolverBranch store repo_owner repo_name branch with
  | (calls, Except.error e) =>
      (calls, CommitMultiploResultado.falha ("Erro ao criar commit múltiplo: " ++ e))
  | (calls, Except.ok b) =>
    let calls := calls ++ [Call.getRef repo_owner repo_name b]
    match store.refHead b with
    | Except.error e =>
        (calls, CommitMultiploResultado.falha ("Erro ao criar commit múltiplo: " ++ e))
    | Except.ok ref_sha =>
      let calls := calls ++ [Call.getCommit repo_owner repo_name ref_sha]
      match store.commitObj ref_sha with
      | Except.error e =>
          (calls, CommitMultiploResultado.falha ("Erro ao criar commit múltiplo: " ++ e))
      | Except.ok cobj =>
        let tree_data : TreeData :=
          { base_tree := cobj.tree_sha, tree := alteracoes.map itemDaAlteracao }
        let calls := calls ++ [Call.postTree repo_owner repo_name tree_data]
        match store.createTree tree_data with
        | Except.error e =>
            (calls, CommitMultiploResultado.falha ("Erro ao criar commit múltiplo: " ++ e))
        | Except.ok new_tree_sha =>
          let commit_data : CommitData :=
            { message := mensagem_commit, parents := [cobj.sha], tree := new_tree_sha }
          let calls := calls ++ [Call.postCommit repo_owner repo_name commit_data]
          match store.createCommit commit_data with
          | Except.error e =>
              (calls, CommitMultiploResultado.falha ("Erro ao criar commit múltiplo: " ++ e))
          | Except.ok new_commit_sha =>
            let ref_data : RefData := { sha := new_commit_sha, force := false }
            let calls := calls ++ [Call.patchRef repo_owner repo_name b ref_data]
            match store.updateRef b ref_data with
            | Except.error e =>
                (calls, CommitMultiploResultado.falha ("Erro ao criar commit múltiplo: " ++ e))
            | Except.ok _ =>
                (calls, CommitMultiploResultado.ok
                  ("Commit com " ++ toString alteracoes.length ++ " alterações criado com sucesso")
                  new_commit_sha
                  ("https://github.com/" ++ repo_owner ++ "/" ++ repo_name ++ "/commit/" ++
                    new_commit_sha)
                  mensagem_commit
                  (alteracoes.map Alteracao.path))

/-- Result dict of `criar_branch`. -/
inductive CriarBranchResultado where
  | ok (mensagem nome ref sha url : String)
  | falha (mensagem : String)
  deriving DecidableEq

def CriarBranchResultado.chaves : CriarBranchResultado → List String
  | .ok .. => ["sucesso", "mensagem", "branch"]
  | .falha _ => ["sucesso", "mensagem"]

/-- `criar_branch` (lines 571-630). -/
def criar_branch (store : Store) (repo_owner repo_name nome_branch : String)
    (branch_base : Option String) : List Call × CriarBranchResultado :=
  match resolverBranch store repo_owner repo_name branch_base with
  | (calls, Except.error e) =>
      (calls, CriarBranchResultado.falha ("Erro ao criar branch: " ++ e))
  | (calls, Except.ok b) =>
    let calls := calls ++ [Call.getRef repo_owner repo_name b]
    match store.refHead b with
    | Except.error e =>
        (calls, CriarBranchResultado.falha ("Erro ao criar branch: " ++ e))
    | Except.ok ref_sha =>
      let d : NewRefData := { ref := "refs/heads/" ++ nome_branch, sha := ref_sha }
      let calls := calls ++ [Call.postRef repo_owner repo_name d]
      match store.createRef d with
      | Except.error e =>
          (calls, CriarBranchResultado.falha ("Erro ao criar branch: " ++ e))
      | Except.ok _ =>
          (calls, CriarBranchResultado.ok
            ("Branch \x27" ++ nome_branch ++ "\x27 criada com sucesso a partir de \x27" ++
              b ++ "\x27")
            nome_branch ("refs/heads/" ++ nome_branch) ref_sha
            ("https://github.com/" ++ repo_owner ++ "/" ++ repo_name ++ "/tree/" ++ nome_branch))

/-! ### The dispatch branch for `gh_criar_commit_multiplo` in `src/main.py`
(`handle_mcp`, lines 287-306) -/

/-- A JSON-RPC reply from `handle_mcp`: either a result envelope or a
protocol error object. -/
inductive MCPResposta where
  | resultado (r : CommitMultiploResultado)
  | erro (code : Int) (message : String)
  deriving DecidableEq

/-- The `gh_criar_commit_multiplo` branch of `handle_mcp`: `alteracoes`
defaults to `[]`, and `not all([...])` rejects any falsy argument (including an
empty change list) with JSON-RPC error `-32602` before any remote call. -/
def handle_gh_criar_commit_multiplo (store : Store)
    (repo_owner repo_name mensagem_commit : Option String)
    (alteracoes : List Alteracao) (branch : Option String) : List Call × MCPResposta :=
  if truthy repo_owner && truthy repo_name && truthy mensagem_commit && !alteracoes.isEmpty then
    let r := criar_commit_multiplo store (repo_owner.getD "") (repo_name.getD "")
      (mensagem_commit.getD "") alteracoes branch
    (r.1, MCPResposta.resultado r.2)
  else
    ([], MCPResposta.erro (-32602)
      "repo_owner, repo_name, mensagem_commit e alteracoes são obrigatórios")

/-! ### Shared helper lemmas and demonstration stores -/

theorem resolverBranch_truthy (store : Store) (o r : String) (br : Option String)
    (h : truthy br = true) : resolverBranch store o r br = ([], Except.ok (br.getD "")) := by
  simp [resolverBranch, h]

theorem resolverBranch_default (store : Store) (o r : String) (br : Option String)
    (info : RepoInfo) (h : truthy br = false) (hi : store.repoInfo = Except.ok info) :
    resolverBranch store o r br =
      ([Call.getRepoInfo o r], Except.ok (info.default_branch.getD "main")) := by
  simp [resolverBranch, h, hi]

theorem truthy_some {b : String} (h : b ≠ "") : truthy (some b) = true := by
  simp [truthy, h]

/-- An all-succeeding demonstration store whose contents endpoint reports 404. -/
def storeDemo : Store := {
  repoInfo := Except.ok ⟨some "dev"⟩,
  contents := fun _ _ => Except.error "404 Client Error",
  putFile := fun _ _ => Except.ok ⟨"c1", "u1", "s1", "u2"⟩,
  deleteFile := fun _ _ => Except.ok ⟨"c1", "u1"⟩,
  refHead := fun _ => Except.ok "h0",
  commitObj := fun s => Except.ok ⟨s, "t0"⟩,
  createTree := fun _ => Except.ok "t1",
  createCommit := fun _ => Except.ok "c9",
  updateRef := fun _ _ => Except.ok (),
  createRef := fun _ => Except.ok () }

/-! ### C1 -/

/-- C1: for every multi-file commit run with a non-empty change list that
completes successfully, the trace of remote calls is exactly the branch
resolution reads followed by one tree creation (whose base is the tree of the
commit the branch head pointed to, and which folds in all requested changes,
one entry per change), then one commit creation, then one conditional ref
update, in that order — in particular no per-file `PUT`/`DELETE` write appears
and no step is skipped or reordered. -/
theorem C1_commit_multiplo_protocolo (store : Store) (o r msg : String)
    (alts : List Alteracao) (br : Option String) (_hne : alts ≠ [])
    (hok : (criar_commit_multiplo store o r msg alts br).2.sucesso = true) :
    ∃ b ref_sha cobj new_tree_sha new_commit_sha,
      store.refHead b = Except.ok ref_sha ∧
      store.commitObj ref_sha = Except.ok cobj ∧
      store.createTree { base_tree := cobj.tree_sha, tree := alts.map itemDaAlteracao }
        = Except.ok new_tree_sha ∧
      store.createCommit { message := msg, parents := [cobj.sha], tree := new_tree_sha }
        = Except.ok new_commit_sha ∧
      (criar_commit_multiplo store o r msg alts br).1 =
        (resolverBranch store o r br).1 ++
        [Call.getRef o r b,
         Call.getCommit o r ref_sha,
         Call.postTree o r { base_tree := cobj.tree_sha, tree := alts.map itemDaAlteracao },
         Call.postCommit o r { message := msg, parents := [cobj.sha], tree := new_tree_sha },
         Call.patchRef o r b { sha := new_commit_sha, force := false }] := by
  unfold criar_commit_multiplo at hok ⊢
  rcases hres : resolverBranch store o r br with ⟨rcalls, rb⟩
  rw [hres] at hok
  rcases rb with e | b
  · simp [CommitMultiploResultado.sucesso] at hok
  · dsimp only at hok ⊢
    rcases h1 : store.refHead b with e | ref_sha <;> rw [h1] at hok <;> dsimp only at hok ⊢
    · simp [CommitMultiploResultado.sucesso] at hok
    · rcases h2 : store.commitObj ref_sha with e | cobj <;> rw [h2] at hok <;>
        dsimp only at hok ⊢
      · simp [CommitMultiploResultado.sucesso] at hok
      · rcases h3 : store.createTree
              { base_tree := cobj.tree_sha, tree := alts.map itemDaAlteracao }
            with e | new_tree_sha <;> rw [h3] at hok <;> dsimp only at hok ⊢
        · simp [CommitMultiploResultado.sucesso] at hok
        · rcases h4 : store.createCommit
                { message := msg, parents := [cobj.sha], tree := new_tree_sha }
              with e | new_commit_sha <;> rw [h4] at hok <;> dsimp only at hok ⊢
          · simp [CommitMultiploResultado.sucesso] at hok
          · rcases h5 : store.updateRef b { sha := new_commit_sha, force := false }
                with e | u <;> rw [h5] at hok <;> dsimp only at hok ⊢
            · simp [CommitMultiploResultado.sucesso] at hok
            · exact ⟨b, ref_sha, cobj, new_tree_sha, new_commit_sha, h1, h2, h3, h4, by simp⟩

/-- Witness for C1: the protocol trace at a concrete store and two-file request. -/
theorem C1_commit_multiplo_protocolo_witness :
    ∃ (b ref_sha : String) (cobj : CommitObj) (new_tree_sha new_commit_sha : String),
      storeDemo.refHead b = Except.ok ref_sha ∧
      storeDemo.commitObj ref_sha = Except.ok cobj ∧
      storeDemo.createTree
          { base_tree := cobj.tree_sha,
            tree := [Alteracao.mk "a.txt" "1", Alteracao.mk "b.txt" "2"].map itemDaAlteracao }
        = Except.ok new_tree_sha ∧
      storeDemo.createCommit { message := "m", parents := [cobj.sha], tree := new_tree_sha }
        = Except.ok new_commit_sha ∧
      (criar_commit_multiplo storeDemo "o" "r" "m"
          [Alteracao.mk "a.txt" "1", Alteracao.mk "b.txt" "2"] (some "main")).1 =
        (resolverBranch storeDemo "o" "r" (some "main")).1 ++
        [Call.getRef "o" "r" b,
         Call.getCommit "o" "r" ref_sha,
         Call.postTree "o" "r"
           { base_tree := cobj.tree_sha,
             tree := [Alteracao.mk "a.txt" "1", Alteracao.mk "b.txt" "2"].map itemDaAlteracao },
         Call.postCommit "o" "r" { message := "m", parents := [cobj.sha], tree := new_tree_sha },
         Call.patchRef "o" "r" b { sha := new_commit_sha, force := false }] :=
  C1_commit_multiplo_protocolo storeDemo "o" "r" "m"
    [Alteracao.mk "a.txt" "1", Alteracao.mk "b.txt" "2"] (some "main")
    (by decide) (by decide)

/-! ### C2 -/

/-- C2: in every multi-file commit run, the payload of any commit-creation call
has as parents exactly the branch head sha that the run read from the ref it
resolved (given the content-addressed store contract: fetching a commit object
by sha returns an object carrying that sha), and every ref-update payload
carries `force = false`. -/
theorem C2_parent_e_force (store : Store) (o r msg : String) (alts : List Alteracao)
    (br : Option String)
    (hca : ∀ s c, store.commitObj s = Except.ok c → c.sha = s) :
    (∀ cd, Call.postCommit o r cd ∈ (criar_commit_multiplo store o r msg alts br).1 →
      ∃ b head_sha, store.refHead b = Except.ok head_sha ∧
        Call.getRef o r b ∈ (criar_commit_multiplo store o r msg alts br).1 ∧
        cd.parents = [head_sha]) ∧
    (∀ b rd, Call.patchRef o r b rd ∈ (criar_commit_multiplo store o r msg alts br).1 →
      rd.force = false) := by
  unfold criar_commit_multiplo
  rcases hres : resolverBranch store o r br with ⟨rcalls, rb⟩
  have hrc : ∀ c ∈ rcalls, c = Call.getRepoInfo o r := by
    intro c hc
    unfold resolverBranch at hres
    split at hres
    · have he : rcalls = [] := by
        have h0 := congrArg Prod.fst hres
        simpa using h0.symm
      rw [he] at hc
      simp at hc
    · have he : rcalls = [Call.getRepoInfo o r] := by
        have h0 := congrArg Prod.fst hres
        simpa using h0.symm
      rw [he] at hc
      simpa using hc
  rcases rb with e | b
  · constructor
    · intro cd hcd
      have := hrc _ hcd
      simp at this
    · intro b rd hrd
      have := hrc _ hrd
      simp at this
  · dsimp only
    rcases h1 : store.refHead b with e | ref_sha <;> dsimp only
    · constructor
      · intro cd hcd
        simp at hcd
        have := hrc _ hcd
        simp at this
      · intro b2 rd hrd
        simp at hrd
        have := hrc _ hrd
        simp at this
    · rcases h2 : store.commitObj ref_sha with e | cobj <;> dsimp only
      · constructor
        · intro cd hcd
          simp at hcd
          have := hrc _ hcd
          simp at this
        · intro b2 rd hrd
          simp at hrd
          have := hrc _ hrd
          simp at this
      · rcases h3 : store.createTree
              { base_tree := cobj.tree_sha, tree := alts.map itemDaAlteracao }
            with e | new_tree_sha <;> dsimp only
        · constructor
          · intro cd hcd
            simp at hcd
            have := hrc _ hcd
            simp at this
          · intro b2 rd hrd
            simp at hrd
            have := hrc _ hrd
            simp at this
        · rcases h4 : store.createCommit
                { message := msg, parents := [cobj.sha], tree := new_tree_sha }
              with e | new_commit_sha <;> dsimp only
          · constructor
            · intro cd hcd
              simp at hcd
              rcases hcd with hcd | hcd
              · have := hrc _ hcd
                simp at this
              · exact ⟨b, ref_sha, h1, by simp, by rw [hcd, hca _ _ h2]⟩
            · intro b2 rd hrd
              simp at hrd
              have := hrc _ hrd
              simp at this
          · rcases h5 : store.updateRef b { sha := new_commit_sha, force := false }
                with e | u <;> dsimp only <;>
              (constructor
               · intro cd hcd
                 simp at hcd
                 rcases hcd with hcd | hcd
                 · have := hrc _ hcd
                   simp at this
                 · exact ⟨b, ref_sha, h1, by simp, by rw [hcd, hca _ _ h2]⟩
               · intro b2 rd hrd
                 simp at hrd
                 rcases hrd with hrd | hrd
                 · have := hrc _ hrd
                   simp at this
                 · rw [hrd.2])

/-- Witness for C2 at a concrete store: the commit payload created by the run
carries the head sha `"h0"` as sole parent, and the ref update carries
`force = false`. -/
theorem C2_parent_e_force_witness :
    (∃ b head_sha, storeDemo.refHead b = Except.ok head_sha ∧
      Call.getRef "o" "r" b ∈ (criar_commit_multiplo storeDemo "o" "r" "m"
        [Alteracao.mk "a.txt" "1"] (some "main")).1 ∧
      CommitData.parents { message := "m", parents := ["h0"], tree := "t1" } = [head_sha]) ∧
    RefData.force { sha := "c9", force := false } = false :=
  ⟨(C2_parent_e_force storeDemo "o" "r" "m" [Alteracao.mk "a.txt" "1"] (some "main")
      (by intro s c h; simp [storeDemo] at h; simp [← h])).1
    { message := "m", parents := ["h0"], tree := "t1" } (by decide),
   (C2_parent_e_force storeDemo "o" "r" "m" [Alteracao.mk "a.txt" "1"] (some "main")
      (by intro s c h; simp [storeDemo] at h; simp [← h])).2
    "main" { sha := "c9", force := false } (by decide)⟩

/-! ### C3 -/

/-- Every tree-creation payload issued by `criar_commit_multiplo` carries one
entry per requested change, in order — duplicates included, since the change
list is never validated. -/
theorem criar_commit_multiplo_postTree (store : Store) (o r msg : String)
    (alts : List Alteracao) (br : Option String) (td : TreeData)
    (h : Call.postTree o r td ∈ (criar_commit_multiplo store o r msg alts br).1) :
    td.tree = alts.map itemDaAlteracao := by
  unfold criar_commit_multiplo at h
  rcases hres : resolverBranch store o r br with ⟨rcalls, rb⟩
  rw [hres] at h
  have hrc : ∀ c ∈ rcalls, c = Call.getRepoInfo o r := by
    intro c hc
    unfold resolverBranch at hres
    split at hres
    · have he : rcalls = [] := by
        have h0 := congrArg Prod.fst hres
        simpa using h0.symm
      rw [he] at hc
      simp at hc
    · have he : rcalls = [Call.getRepoInfo o r] := by
        have h0 := congrArg Prod.fst hres
        simpa using h0.symm
      rw [he] at hc
      simpa using hc
  rcases rb with e | b
  · have := hrc _ h
    simp at this
  · dsimp only at h
    rcases h1 : store.refHead b with e | ref_sha <;> rw [h1] at h <;> dsimp only at h
    · simp at h
      have := hrc _ h
      simp at this
    · rcases h2 : store.commitObj ref_sha with e | cobj <;> rw [h2] at h <;> dsimp only at h
      · simp at h
        have := hrc _ h
        simp at this
      · rcases h3 : store.createTree
              { base_tree := cobj.tree_sha, tree := alts.map itemDaAlteracao }
            with e | nts <;> rw [h3] at h <;> dsimp only at h
        · simp at h
          rcases h with h | h
          · have := hrc _ h
            simp at this
          · rw [h]
        · rcases h4 : store.createCommit
                { message := msg, parents := [cobj.sha], tree := nts }
              with e | ncs <;> rw [h4] at h <;> dsimp only at h
          · simp at h
            rcases h with h | h
            · have := hrc _ h
              simp at this
            · rw [h]
          · rcases h5 : store.updateRef b { sha := ncs, force := false }
                with e | u <;> rw [h5] at h <;> dsimp only at h <;>
              (simp at h
               rcases h with h | h
               · have := hrc _ h
                 simp at this
               · rw [h])

/-- C3 counterexample: a request whose change list repeats the path `a.txt`
is not rejected: it issues five remote calls (refuting "zero remote calls")
and completes as a successful commit, with no `ValidationError`-style failure. -/
theorem C3_counterexample :
    (handle_gh_criar_commit_multiplo storeDemo (some "o") (some "r") (some "m")
        [Alteracao.mk "a.txt" "1", Alteracao.mk "a.txt" "2"] (some "main")).1.length = 5 ∧
    (handle_gh_criar_commit_multiplo storeDemo (some "o") (some "r") (some "m")
        [Alteracao.mk "a.txt" "1", Alteracao.mk "a.txt" "2"] (some "main")).2 =
      MCPResposta.resultado (CommitMultiploResultado.ok
        "Commit com 2 alterações criado com sucesso" "c9" "https://github.com/o/r/commit/c9"
        "m" ["a.txt", "a.txt"]) := by
  constructor
  · rfl
  · rfl

/-- C3 amended: the only list validation is the dispatch layer rejecting a
falsy (empty) change list with JSON-RPC error -32602 before any remote call;
requests with empty or duplicate paths are passed through unvalidated — the
operation proceeds, and every tree-creation payload carries one entry per
requested change, duplicates and empty paths included. -/
theorem C3_validacao_amended (store : Store) (ro rn mc : Option String)
    (alts : List Alteracao) (br : Option String) :
    (alts = [] → handle_gh_criar_commit_multiplo store ro rn mc alts br =
      ([], MCPResposta.erro (-32602)
        "repo_owner, repo_name, mensagem_commit e alteracoes são obrigatórios")) ∧
    (truthy ro = true → truthy rn = true → truthy mc = true → alts ≠ [] →
      handle_gh_criar_commit_multiplo store ro rn mc alts br =
        ((criar_commit_multiplo store (ro.getD "") (rn.getD "") (mc.getD "") alts br).1,
         MCPResposta.resultado
           (criar_commit_multiplo store (ro.getD "") (rn.getD "") (mc.getD "") alts br).2) ∧
      ∀ td, Call.postTree (ro.getD "") (rn.getD "") td ∈
          (criar_commit_multiplo store (ro.getD "") (rn.getD "") (mc.getD "") alts br).1 →
        td.tree = alts.map itemDaAlteracao) := by
  constructor
  · intro he
    subst he
    unfold handle_gh_criar_commit_multiplo
    simp
  · intro h1 h2 h3 h4
    constructor
    · unfold handle_gh_criar_commit_multiplo
      simp [h1, h2, h3, h4]
    · intro td htd
      exact criar_commit_multiplo_postTree store (ro.getD "") (rn.getD "") (mc.getD "")
        alts br td htd

/-- Witness for C3 amended: the empty list is rejected with -32602 and no
calls; a duplicate-path list passes through, its tree payload repeating the
path. -/
theorem C3_validacao_amended_witness :
    (handle_gh_criar_commit_multiplo storeDemo (some "o") (some "r") (some "m") []
        (some "main") =
      ([], MCPResposta.erro (-32602)
        "repo_owner, repo_name, mensagem_commit e alteracoes são obrigatórios")) ∧
    TreeData.tree
        { base_tree := "t0",
          tree := [Alteracao.mk "c.txt" "1", Alteracao.mk "c.txt" "2"].map itemDaAlteracao } =
      [Alteracao.mk "c.txt" "1", Alteracao.mk "c.txt" "2"].map itemDaAlteracao :=
  ⟨(C3_validacao_amended storeDemo (some "o") (some "r") (some "m") [] (some "main")).1 rfl,
   ((C3_validacao_amended storeDemo (some "o") (some "r") (some "m")
        [Alteracao.mk "c.txt" "1", Alteracao.mk "c.txt" "2"] (some "main")).2
      (by decide) (by decide) (by decide) (by decide)).2
    { base_tree := "t0",
      tree := [Alteracao.mk "c.txt" "1", Alteracao.mk "c.txt" "2"].map itemDaAlteracao }
    (by decide)⟩

/-! ### C4 -/

theorem resolverBranch_trace (store : Store) (o r : String) (br : Option String) :
    (resolverBranch store o r br).1 = [] ∨
    (resolverBranch store o r br).1 = [Call.getRepoInfo o r] := by
  unfold resolverBranch
  split
  · left; rfl
  · right; rfl

/-- The trace of `obter_conteudo_arquivo`: the branch resolution reads,
possibly followed by one contents read. -/
theorem obter_trace (store : Store) (o r p : String) (br : Option String) :
    (obter_conteudo_arquivo store o r p br).1 = (resolverBranch store o r br).1 ∨
    ∃ b, (resolverBranch store o r br).2 = Except.ok b ∧
      (obter_conteudo_arquivo store o r p br).1 =
        (resolverBranch store o r br).1 ++ [Call.getContents o r p b] := by
  unfold obter_conteudo_arquivo
  rcases hres : resolverBranch store o r br with ⟨rcalls, rb⟩
  rcases rb with e | b
  · left; rfl
  · right
    refine ⟨b, rfl, ?_⟩
    dsimp only
    rcases store.contents p b with e | resp
    · rfl
    · rcases resp with f | l
      · dsimp only
        split
        · rfl
        · rcases b64decode f.content with _ | bytes
          · rfl
          · dsimp only
            rcases utf8Decode bytes with _ | cps <;> rfl
      · rfl

theorem resolverBranch_cases (store : Store) (o r : String) (br : Option String) :
    (truthy br = true ∧ resolverBranch store o r br = ([], Except.ok (br.getD ""))) ∨
    (truthy br = false ∧ ∃ e, store.repoInfo = Except.error e ∧
        resolverBranch store o r br = ([Call.getRepoInfo o r], Except.error e)) ∨
    (truthy br = false ∧ ∃ info, store.repoInfo = Except.ok info ∧
        resolverBranch store o r br =
          ([Call.getRepoInfo o r], Except.ok (info.default_branch.getD "main"))) := by
  by_cases h : truthy br = true
  · left
    exact ⟨h, by simp [resolverBranch, h]⟩
  · have h2 : truthy br = false := by simpa using h
    rcases hri : store.repoInfo with e | info
    · right; left
      exact ⟨h2, e, rfl, by simp [resolverBranch, h2, hri]⟩
    · right; right
      exact ⟨h2, info, rfl, by simp [resolverBranch, h2, hri]⟩

/-- Every call issued by `obter_conteudo_arquivo` is the repo-info read or a
contents read of the requested path. -/
theorem obter_calls (store : Store) (o r p : String) (br : Option String) (c : Call)
    (hc : c ∈ (obter_conteudo_arquivo store o r p br).1) :
    c = Call.getRepoInfo o r ∨ ∃ b, c = Call.getContents o r p b := by
  rcases obter_trace store o r p br with h | ⟨b, _, h⟩ <;> rw [h] at hc <;>
    rcases resolverBranch_trace store o r br with h2 | h2 <;> rw [h2] at hc <;>
    simp at hc
  · tauto
  · rcases hc with hc | hc
    all_goals tauto
  · tauto

theorem obter_nodup (store : Store) (o r p : String) (br : Option String) :
    (obter_conteudo_arquivo store o r p br).1.Nodup := by
  rcases obter_trace store o r p br with h | ⟨b, _, h⟩ <;> rw [h] <;>
    rcases resolverBranch_trace store o r br with h2 | h2 <;> rw [h2] <;> simp

theorem listar_nodup (store : Store) (o r p : String) (br : Option String) :
    (listar_arquivos store o r p br).1.Nodup := by
  unfold listar_arquivos
  rcases hres : resolverBranch store o r br with ⟨rcalls, rb⟩
  have hrc : rcalls = [] ∨ rcalls = [Call.getRepoInfo o r] := by
    have h0 := resolverBranch_trace store o r br
    rw [hres] at h0
    exact h0
  rcases rb with e | b <;> dsimp only
  · rcases hrc with h | h <;> simp [h]
  · rcases store.contents p b with e | resp <;> dsimp only <;>
      rcases hrc with h | h <;> simp [h]

theorem criar_branch_nodup (store : Store) (o r nome : String) (br : Option String) :
    (criar_branch store o r nome br).1.Nodup := by
  unfold criar_branch
  rcases hres : resolverBranch store o r br with ⟨rcalls, rb⟩
  have hrc : rcalls = [] ∨ rcalls = [Call.getRepoInfo o r] := by
    have h0 := resolverBranch_trace store o r br
    rw [hres] at h0
    exact h0
  rcases rb with e | b <;> dsimp only
  · rcases hrc with h | h <;> simp [h]
  · rcases store.refHead b with e | ref_sha <;> dsimp only
    · rcases hrc with h | h <;> simp [h]
    · rcases store.createRef _ with e | u <;> dsimp only <;>
        rcases hrc with h | h <;> simp [h]

theorem criar_commit_multiplo_nodup (store : Store) (o r msg : String)
    (alts : List Alteracao) (br : Option String) :
    (criar_commit_multiplo store o r msg alts br).1.Nodup := by
  unfold criar_commit_multiplo
  rcases hres : resolverBranch store o r br with ⟨rcalls, rb⟩
  have hrc : rcalls = [] ∨ rcalls = [Call.getRepoInfo o r] := by
    have h0 := resolverBranch_trace store o r br
    rw [hres] at h0
    exact h0
  rcases rb with e | b <;> dsimp only
  · rcases hrc with h | h <;> simp [h]
  · rcases store.refHead b with e | ref_sha <;> dsimp only
    · rcases hrc with h | h <;> simp [h]
    · rcases store.commitObj ref_sha with e | cobj <;> dsimp only
      · rcases hrc with h | h <;> simp [h]
      · rcases store.createTree _ with e | nts <;> dsimp only
        · rcases hrc with h | h <;> simp [h]
        · rcases store.createCommit _ with e | ncs <;> dsimp only
          · rcases hrc with h | h <;> simp [h]
          · rcases store.updateRef _ _ with e | u <;> dsimp only <;>
              rcases hrc with h | h <;> simp [h]

theorem excluir_nodup (store : Store) (o r p m : String) (br : Option String) :
    (excluir_arquivo store o r p m br).1.Nodup := by
  unfold excluir_arquivo
  rcases hob : obter_conteudo_arquivo store o r p br with ⟨c1, res⟩
  have hn : c1.Nodup := by
    have h0 := obter_nodup store o r p br
    rw [hob] at h0
    exact h0
  have hcalls : ∀ c ∈ c1, c = Call.getRepoInfo o r ∨ ∃ b, c = Call.getContents o r p b := by
    intro c hc
    have h0 := obter_calls store o r p br c
    rw [hob] at h0
    exact h0 hc
  rcases res with ⟨n, cam, t, fsha, cont, u, fb⟩ | m2 <;> dsimp only
  · rcases store.deleteFile _ _ with e | resp <;> dsimp only
    all_goals
      rw [List.nodup_append]
      refine ⟨hn, by simp, ?_⟩
      intro c hc hc2
      simp at hc2
      rcases hcalls c hc with h | ⟨b2, h⟩ <;> simp [h] at hc2
  · exact hn

def exceptIsErr {α : Type} : Except String α → Bool
  | Except.error _ => true
  | Except.ok _ => false

/-- Whether the store would answer this call with a response on which
`raise_for_status()` raises. -/
def respondeErro (store : Store) : Call → Bool
  | Call.getRepoInfo _ _ => exceptIsErr store.repoInfo
  | Call.getContents _ _ p b => exceptIsErr (store.contents p b)
  | Call.putContents _ _ p d => exceptIsErr (store.putFile p d)
  | Call.deleteContents _ _ p d => exceptIsErr (store.deleteFile p d)
  | Call.getRef _ _ b => exceptIsErr (store.refHead b)
  | Call.getCommit _ _ s => exceptIsErr (store.commitObj s)
  | Call.postTree _ _ d => exceptIsErr (store.createTree d)
  | Call.postCommit _ _ d => exceptIsErr (store.createCommit d)
  | Call.patchRef _ _ b d => exceptIsErr (store.updateRef b d)
  | Call.postRef _ _ d => exceptIsErr (store.createRef d)

theorem shaLookup_calls (store : Store) (o r p b : String) (sha : Option String) (c : Call)
    (hc : c ∈ (shaLookup store o r p b sha).1) :
    c = Call.getRepoInfo o r ∨ ∃ b2, c = Call.getContents o r p b2 := by
  unfold shaLookup at hc
  split at hc
  · simp at hc
  · rcases hob : obter_conteudo_arquivo store o r p (some b) with ⟨c2, res2⟩
    rw [hob] at hc
    have h0 := obter_calls store o r p (some b) c
    rw [hob] at h0
    rcases res2 with ⟨n2, cam2, t2, fsha2, cont2, u2, fb2⟩ | m2 <;> dsimp only at hc <;>
      exact h0 hc

theorem shaLookup_count (store : Store) (o r p b : String) (sha : Option String) (c : Call) :
    (shaLookup store o r p b sha).1.count c ≤ 1 := by
  unfold shaLookup
  split
  · simp
  · rcases hob : obter_conteudo_arquivo store o r p (some b) with ⟨c2, res2⟩
    have h0 := obter_nodup store o r p (some b)
    rw [hob] at h0
    rcases res2 with ⟨n2, cam2, t2, fsha2, cont2, u2, fb2⟩ | m2 <;> dsimp only <;>
      exact List.nodup_iff_count_le_one.mp h0 c

/-- A call whose response is an error is issued at most once by
`atualizar_arquivo` (the only repeated call it can ever issue is a repo-info
read that succeeded). -/
theorem atualizar_count (store : Store) (o r p conteudo msg : String)
    (br sha : Option String) (c : Call) (hc : respondeErro store c = true) :
    (atualizar_arquivo store o r p conteudo msg br sha).1.count c ≤ 1 := by
  have hsingle : ∀ x : Call, ([x] : List Call).count c ≤ 1 := by
    intro x
    have h0 := List.count_le_length (l := [x]) (a := c)
    simpa using h0
  unfold atualizar_arquivo
  rcases resolverBranch_cases store o r br with ⟨ht, heq⟩ | ⟨ht, e, hrep, heq⟩ |
    ⟨ht, info, hrep, heq⟩
  · rw [heq]
    dsimp only
    rcases hlk : shaLookup store o r p (br.getD "") sha with ⟨c2, sha2⟩
    have hcount2 : c2.count c ≤ 1 := by
      have h0 := shaLookup_count store o r p (br.getD "") sha c
      rw [hlk] at h0
      exact h0
    have hcalls2 : ∀ cc ∈ c2, cc = Call.getRepoInfo o r ∨
        ∃ b2, cc = Call.getContents o r p b2 := by
      intro cc hcc
      have h0 := shaLookup_calls store o r p (br.getD "") sha cc
      rw [hlk] at h0
      exact h0 hcc
    dsimp only
    split <;> dsimp only <;>
      (rw [List.nil_append, List.count_append]
       by_cases hcp : ∃ pd, c = Call.putContents o r p pd
       · obtain ⟨pd, hcp⟩ := hcp
         have hz : c2.count c = 0 := by
           rw [List.count_eq_zero]
           intro hmem
           rcases hcalls2 c hmem with h | ⟨b2, h⟩ <;> rw [hcp] at h <;> simp at h
         rw [hz]
         simpa using hsingle _
       · have hz : ∀ pd, ([Call.putContents o r p pd] : List Call).count c = 0 := by
           intro pd
           rw [List.count_eq_zero]
           simp only [List.mem_singleton]
           intro h
           exact hcp ⟨pd, h⟩
         rw [hz _]
         omega)
  · rw [heq]
    dsimp only
    simpa using hsingle _
  · rw [heq]
    dsimp only
    have hcg : c ≠ Call.getRepoInfo o r := by
      intro h
      rw [h] at hc
      simp [respondeErro, hrep, exceptIsErr] at hc
    rcases hlk : shaLookup store o r p (info.default_branch.getD "main") sha with ⟨c2, sha2⟩
    have hcount2 : c2.count c ≤ 1 := by
      have h0 := shaLookup_count store o r p (info.default_branch.getD "main") sha c
      rw [hlk] at h0
      exact h0
    have hcalls2 : ∀ cc ∈ c2, cc = Call.getRepoInfo o r ∨
        ∃ b2, cc = Call.getContents o r p b2 := by
      intro cc hcc
      have h0 := shaLookup_calls store o r p (info.default_branch.getD "main") sha cc
      rw [hlk] at h0
      exact h0 hcc
    dsimp only
    split <;> dsimp only <;>
      (rw [List.count_append, List.count_append]
       have hz0 : ([Call.getRepoInfo o r] : List Call).count c = 0 := by
         rw [List.count_eq_zero]
         simp only [List.mem_singleton]
         exact hcg
       by_cases hcp : ∃ pd, c = Call.putContents o r p pd
       · obtain ⟨pd, hcp⟩ := hcp
         have hz : c2.count c = 0 := by
           rw [List.count_eq_zero]
           intro hmem
           rcases hcalls2 c hmem with h | ⟨b2, h⟩ <;> rw [hcp] at h <;> simp at h
         rw [hz0, hz]
         simpa using hsingle _
       · have hz : ∀ pd, ([Call.putContents o r p pd] : List Call).count c = 0 := by
           intro pd
           rw [List.count_eq_zero]
           simp only [List.mem_singleton]
           intro h
           exact hcp ⟨pd, h⟩
         rw [hz0, hz _]
         omega)

/-- Modelled from the spec: the failure classification taxonomy of section 7
(`NotFound`, `Conflict`, `ValidationError`, `RemoteFailure`).  The code defines
no such type; this is the spec vocabulary needed to state claim C4. -/
inductive Classificacao where
  | notFound
  | conflict
  | validationError
  | remoteFailure
  deriving DecidableEq

def nomeClassificacao : Classificacao → String
  | Classificacao.notFound => "NotFound"
  | Classificacao.conflict => "Conflict"
  | Classificacao.validationError => "ValidationError"
  | Classificacao.remoteFailure => "RemoteFailure"

/-- Whether `needle` occurs as a contiguous run inside `hay`. -/
def contemInfixo (needle : List Char) : List Char → Bool
  | [] => needle.isEmpty
  | c :: resto => needle.isPrefixOf (c :: resto) || contemInfixo needle resto

/-- Modelled from the spec (sections 6 and 7: a structured failure is "kind +
message", "failures always carry the classification").  A failure envelope
carries classification c when it has a field besides the boolean flag and the
free-text message (a slot where the kind could live), or when its message
names the classification. -/
def falhaCarregaClassificacao (chaves : List String) (mensagem : String)
    (c : Classificacao) : Prop :=
  (∃ k ∈ chaves, k ≠ "sucesso" ∧ k ≠ "mensagem") ∨
  contemInfixo (nomeClassificacao c).data mensagem.data = true

/-- A store whose branch-ref read fails with an HTTP 404. -/
def storeRefFalha : Store := { storeDemo with
  refHead := fun _ => Except.error "404 Client Error: Not Found for url" }

/-- C4 counterexample: when the ref read fails, `criar_commit_multiplo`
returns a failure envelope whose only fields are the boolean flag and the
free-text message; it carries none of the four classifications of the spec
taxonomy — refuting that every failure carries a classification. -/
theorem C4_counterexample :
    (criar_commit_multiplo storeRefFalha "o" "r" "m" [Alteracao.mk "a.txt" "1"]
        (some "main")).2 =
      CommitMultiploResultado.falha
        "Erro ao criar commit múltiplo: 404 Client Error: Not Found for url" ∧
    CommitMultiploResultado.chaves (CommitMultiploResultado.falha
        "Erro ao criar commit múltiplo: 404 Client Error: Not Found for url") =
      ["sucesso", "mensagem"] ∧
    ∀ c : Classificacao, ¬ falhaCarregaClassificacao ["sucesso", "mensagem"]
      "Erro ao criar commit múltiplo: 404 Client Error: Not Found for url" c := by
  refine ⟨rfl, rfl, ?_⟩
  intro c
  cases c <;> simp only [falhaCarregaClassificacao] <;> decide

/-- C4 amended: every operation returns a uniform envelope — on success the
dict with the operation fields, on failure a dict with exactly the boolean
flag and a descriptive message and no classification field — and no call whose
response was an error is ever issued twice in one run (the core never retries
a failed remote call). -/
theorem C4_envelope_sem_retry (store : Store) (o r p nome conteudo msg mdel : String)
    (alts : List Alteracao) (br sha : Option String) :
    ((listar_arquivos store o r p br).2.chaves = ["sucesso", "mensagem", "branch", "itens"] ∨
      (listar_arquivos store o r p br).2.chaves = ["sucesso", "mensagem"]) ∧
    ((obter_conteudo_arquivo store o r p br).2.chaves =
        ["sucesso", "mensagem", "nome", "caminho", "tamanho", "sha", "conteudo", "url",
          "branch"] ∨
      (obter_conteudo_arquivo store o r p br).2.chaves = ["sucesso", "mensagem"]) ∧
    ((atualizar_arquivo store o r p conteudo msg br sha).2.chaves =
        ["sucesso", "mensagem", "commit", "arquivo"] ∨
      (atualizar_arquivo store o r p conteudo msg br sha).2.chaves =
        ["sucesso", "mensagem"]) ∧
    ((excluir_arquivo store o r p mdel br).2.chaves = ["sucesso", "mensagem", "commit"] ∨
      (excluir_arquivo store o r p mdel br).2.chaves = ["sucesso", "mensagem"]) ∧
    ((criar_commit_multiplo store o r msg alts br).2.chaves =
        ["sucesso", "mensagem", "commit", "arquivos_alterados"] ∨
      (criar_commit_multiplo store o r msg alts br).2.chaves = ["sucesso", "mensagem"]) ∧
    ((criar_branch store o r nome br).2.chaves = ["sucesso", "mensagem", "branch"] ∨
      (criar_branch store o r nome br).2.chaves = ["sucesso", "mensagem"]) ∧
    (∀ c, respondeErro store c = true →
      (listar_arquivos store o r p br).1.count c ≤ 1 ∧
      (obter_conteudo_arquivo store o r p br).1.count c ≤ 1 ∧
      (atualizar_arquivo store o r p conteudo msg br sha).1.count c ≤ 1 ∧
      (excluir_arquivo store o r p mdel br).1.count c ≤ 1 ∧
      (criar_commit_multiplo store o r msg alts br).1.count c ≤ 1 ∧
      (criar_branch store o r nome br).1.count c ≤ 1) := by
  refine ⟨?_, ?_, ?_, ?_, ?_, ?_, ?_⟩
  · rcases (listar_arquivos store o r p br).2 with ⟨m1, b1, it1⟩ | m1
    · exact Or.inl rfl
    · exact Or.inr rfl
  · rcases (obter_conteudo_arquivo store o r p br).2 with ⟨n1, c1, t1, s1, co1, u1, b1⟩ | m1
    · exact Or.inl rfl
    · exact Or.inr rfl
  · rcases (atualizar_arquivo store o r p conteudo msg br sha).2 with
      ⟨m1, c1, u1, an1, ac1, as1, au1⟩ | m1
    · exact Or.inl rfl
    · exact Or.inr rfl
  · rcases (excluir_arquivo store o r p mdel br).2 with ⟨m1, c1, u1⟩ | m1
    · exact Or.inl rfl
    · exact Or.inr rfl
  · rcases (criar_commit_multiplo store o r msg alts br).2 with ⟨m1, c1, u1, cm1, fa1⟩ | m1
    · exact Or.inl rfl
    · exact Or.inr rfl
  · rcases (criar_branch store o r nome br).2 with ⟨m1, n1, rf1, s1, u1⟩ | m1
    · exact Or.inl rfl
    · exact Or.inr rfl
  · intro c hc
    refine ⟨List.nodup_iff_count_le_one.mp (listar_nodup store o r p br) c,
      List.nodup_iff_count_le_one.mp (obter_nodup store o r p br) c,
      atualizar_count store o r p conteudo msg br sha c hc,
      List.nodup_iff_count_le_one.mp (excluir_nodup store o r p mdel br) c,
      List.nodup_iff_count_le_one.mp (criar_commit_multiplo_nodup store o r msg alts br) c,
      List.nodup_iff_count_le_one.mp (criar_branch_nodup store o r nome br) c⟩

/-- Witness for C4 amended: at a store whose ref read fails, the failing ref
read call is issued at most once per run for each operation. -/
theorem C4_envelope_sem_retry_witness :
    (listar_arquivos storeRefFalha "o" "r" "p" (some "main")).1.count
        (Call.getRef "o" "r" "main") ≤ 1 ∧
    (obter_conteudo_arquivo storeRefFalha "o" "r" "p" (some "main")).1.count
        (Call.getRef "o" "r" "main") ≤ 1 ∧
    (atualizar_arquivo storeRefFalha "o" "r" "p" "c" "m" (some "main") none).1.count
        (Call.getRef "o" "r" "main") ≤ 1 ∧
    (excluir_arquivo storeRefFalha "o" "r" "p" "m" (some "main")).1.count
        (Call.getRef "o" "r" "main") ≤ 1 ∧
    (criar_commit_multiplo storeRefFalha "o" "r" "m" [Alteracao.mk "a.txt" "1"]
        (some "main")).1.count (Call.getRef "o" "r" "main") ≤ 1 ∧
    (criar_branch storeRefFalha "o" "r" "nova" (some "main")).1.count
        (Call.getRef "o" "r" "main") ≤ 1 :=
  (C4_envelope_sem_retry storeRefFalha "o" "r" "p" "nova" "c" "m" "m"
      [Alteracao.mk "a.txt" "1"] (some "main") none).2.2.2.2.2.2
    (Call.getRef "o" "r" "main") (by decide)

/-! ### C5 -/

/-- The non-UTF-8 blob used by the C5 counterexample. -/
def fiNaoUtf8 : FileInfo :=
  { type := "file", name := "f.bin", path := "f.bin", size := 2, sha := "sbin",
    content := b64encode [255, 254], html_url := "u" }

def storeNaoUtf8 : Store := { storeDemo with
  contents := fun p b =>
    if p = "f.bin" ∧ b = "main" then Except.ok (ContentsResp.arquivo fiNaoUtf8)
    else Except.error "404 Client Error" }

/-- C5 counterexample: content is not treated as opaque bytes.  The byte
sequence `[255, 254]` is not valid UTF-8; it cannot be supplied to
`atualizar_arquivo` at all (whose content parameter is text), and reading a
file whose stored blob holds these bytes does not return them: the read fails
with a decode error.  This refutes byte-identical round-tripping "for every
content value including non-UTF8 byte sequences". -/
theorem C5_counterexample :
    utf8Decode [255, 254] = none ∧
    b64decode (b64encode [255, 254]) = some [255, 254] ∧
    (obter_conteudo_arquivo storeNaoUtf8 "o" "r" "f.bin" (some "main")).2 =
      ObterResultado.falha ("Erro ao obter conteúdo do arquivo: " ++ unicodeErroMsg) :=
  ⟨rfl, rfl, rfl⟩

/-- C5 amended: for every text content (a sequence of Unicode scalar values,
embedded null characters included) the write/read pair round-trips exactly.
The write sends base64(UTF-8(content)); the store decodes the transport
encoding into the blob (base64 decoding is proved to invert the encoding) and
re-serves base64(blob); the read then returns a string equal to the original
content.  Non-UTF-8 byte content is outside the text domain (see the
counterexample). -/
theorem C5_conteudo_roundtrip (store store2 : Store) (o r p msg conteudo b : String)
    (br sha : Option String) (hb : b ≠ "") (fi : FileInfo) :
    (∀ d, Call.putContents o r p d ∈ (atualizar_arquivo store o r p conteudo msg br sha).1 →
      d.content = b64encode (pyEncodeUtf8 conteudo)) ∧
    b64decode (b64encode (pyEncodeUtf8 conteudo)) = some (pyEncodeUtf8 conteudo) ∧
    (store2.contents p b = Except.ok (ContentsResp.arquivo fi) → fi.type = "file" →
      fi.content = b64encode (pyEncodeUtf8 conteudo) →
      (obter_conteudo_arquivo store2 o r p (some b)).2 =
        ObterResultado.ok fi.name fi.path fi.size fi.sha conteudo fi.html_url b) := by
  refine ⟨?_, b64decode_b64encode _ (pyEncodeUtf8_lt_256 conteudo), ?_⟩
  · intro d hd
    unfold atualizar_arquivo at hd
    rcases hres : resolverBranch store o r br with ⟨rcalls, rb⟩
    rw [hres] at hd
    have hrc : rcalls = [] ∨ rcalls = [Call.getRepoInfo o r] := by
      have h0 := resolverBranch_trace store o r br
      rw [hres] at h0
      exact h0
    rcases rb with e | b2
    · dsimp only at hd
      rcases hrc with h | h <;> rw [h] at hd <;> simp at hd
    · dsimp only at hd
      rcases hlk : shaLookup store o r p b2 sha with ⟨c2, sha2⟩
      rw [hlk] at hd
      dsimp only at hd
      split at hd <;>
        (simp only [List.append_assoc, List.mem_append, List.mem_singleton] at hd
         rcases hd with hd | hd | hd
         · rcases hrc with h | h <;> rw [h] at hd <;> simp at hd
         · have h0 := shaLookup_calls store o r p b2 sha (Call.putContents o r p d)
           rw [hlk] at h0
           rcases h0 hd with h | ⟨bb, h⟩ <;> simp at h
         · injection hd with h1 h2 h3 h4
           rw [h4])
  · intro hc ht hfc
    unfold obter_conteudo_arquivo
    rw [resolverBranch_truthy store2 o r (some b) (truthy_some hb)]
    dsimp only [Option.getD_some]
    rw [hc]
    dsimp only
    rw [if_neg (by simp [ht])]
    have hb64 : b64decode fi.content = some (pyEncodeUtf8 conteudo) := by
      rw [hfc]
      exact b64decode_b64encode _ (pyEncodeUtf8_lt_256 conteudo)
    rw [hb64]
    dsimp only
    have hrt := utf8_string_roundtrip conteudo
    rcases hu : utf8Decode (pyEncodeUtf8 conteudo) with _ | cps
    · rw [hu] at hrt
      simp at hrt
    · rw [hu] at hrt
      simp only [Option.map] at hrt
      have hsc : stringOfCodepoints cps = conteudo := by
        injection hrt
      dsimp only
      rw [hsc]

/-- The demonstration content of C5: an embedded null byte and a non-ASCII
character. -/
def conteudoDemo : String := "a\x00é"

def fiRoundtrip : FileInfo :=
  { type := "file", name := "a.txt", path := "a.txt", size := 4, sha := "s1",
    content := b64encode (pyEncodeUtf8 conteudoDemo), html_url := "u" }

def storeRoundtrip : Store := { storeDemo with
  contents := fun p b =>
    if p = "a.txt" ∧ b = "main" then Except.ok (ContentsResp.arquivo fiRoundtrip)
    else Except.error "404 Client Error" }

/-- Witness for C5: the content with an embedded null byte is sent as its
base64-encoded UTF-8 bytes and read back unchanged. -/
theorem C5_conteudo_roundtrip_witness :
    PutData.content
        { message := "m", content := b64encode (pyEncodeUtf8 conteudoDemo), branch := "main",
          sha := none } = b64encode (pyEncodeUtf8 conteudoDemo) ∧
    (obter_conteudo_arquivo storeRoundtrip "o" "r" "a.txt" (some "main")).2 =
      ObterResultado.ok fiRoundtrip.name fiRoundtrip.path fiRoundtrip.size fiRoundtrip.sha
        conteudoDemo fiRoundtrip.html_url "main" :=
  ⟨(C5_conteudo_roundtrip storeDemo storeRoundtrip "o" "r" "a.txt" "m" conteudoDemo "main"
      (some "main") none (by decide) fiRoundtrip).1
    { message := "m", content := b64encode (pyEncodeUtf8 conteudoDemo), branch := "main",
      sha := none } (by decide),
   (C5_conteudo_roundtrip storeDemo storeRoundtrip "o" "r" "a.txt" "m" conteudoDemo "main"
      (some "main") none (by decide) fiRoundtrip).2.2 rfl rfl rfl⟩

/-! ### C6 -/

/-- `obter_conteudo_arquivo` with an explicit branch, when the file exists and
decodes: one contents read, success envelope. -/
theorem obter_ok_eq (store : Store) (o r p b : String) (hb : b ≠ "") (fi : FileInfo)
    (hc : store.contents p b = Except.ok (ContentsResp.arquivo fi)) (ht : fi.type = "file")
    (bytes cps : List Nat) (hb64 : b64decode fi.content = some bytes)
    (hu : utf8Decode bytes = some cps) :
    obter_conteudo_arquivo store o r p (some b) =
      ([Call.getContents o r p b],
       ObterResultado.ok fi.name fi.path fi.size fi.sha (stringOfCodepoints cps)
         fi.html_url b) := by
  unfold obter_conteudo_arquivo
  rw [resolverBranch_truthy store o r (some b) (truthy_some hb)]
  dsimp only [Option.getD_some]
  rw [hc]
  dsimp only
  rw [if_neg (by simp [ht]), hb64]
  dsimp only
  rw [hu]
  simp

/-- `obter_conteudo_arquivo` with an explicit branch, when the contents read
fails: one contents read, the failure envelope with only flag and message. -/
theorem obter_erro_eq (store : Store) (o r p b : String) (hb : b ≠ "") (e : String)
    (hc : store.contents p b = Except.error e) :
    obter_conteudo_arquivo store o r p (some b) =
      ([Call.getContents o r p b],
       ObterResultado.falha ("Erro ao obter conteúdo do arquivo: " ++ e)) := by
  unfold obter_conteudo_arquivo
  rw [resolverBranch_truthy store o r (some b) (truthy_some hb)]
  dsimp only [Option.getD_some]
  rw [hc]
  simp

theorem shaLookup_truthy (store : Store) (o r p b : String) (sha : Option String)
    (hsha : truthy sha = true) : shaLookup store o r p b sha = ([], sha) := by
  unfold shaLookup
  rw [if_pos hsha]

theorem shaLookup_ok (store : Store) (o r p b : String) (sha : Option String)
    (hsha : truthy sha = false) (hb : b ≠ "") (fi : FileInfo)
    (hc : store.contents p b = Except.ok (ContentsResp.arquivo fi)) (ht : fi.type = "file")
    (bytes cps : List Nat) (hb64 : b64decode fi.content = some bytes)
    (hu : utf8Decode bytes = some cps) :
    shaLookup store o r p b sha = ([Call.getContents o r p b], some fi.sha) := by
  unfold shaLookup
  rw [if_neg (by simp [hsha])]
  rw [obter_ok_eq store o r p b hb fi hc ht bytes cps hb64 hu]

theorem shaLookup_erro (store : Store) (o r p b : String) (sha : Option String)
    (hsha : truthy sha = false) (hb : b ≠ "") (e : String)
    (hc : store.contents p b = Except.error e) :
    shaLookup store o r p b sha = ([Call.getContents o r p b], sha) := by
  unfold shaLookup
  rw [if_neg (by simp [hsha])]
  rw [obter_erro_eq store o r p b hb e hc]

/-- Whenever the preliminary read returns its failure dict — for any reason,
including a decode failure on an existing file — the looked-up `sha` is the
caller value unchanged (lines 279-284: the except block swallows the failure). -/
theorem shaLookup_falha (store : Store) (o r p b : String) (sha : Option String)
    (hsha : truthy sha = false) (m : String)
    (hf : (obter_conteudo_arquivo store o r p (some b)).2 = ObterResultado.falha m) :
    shaLookup store o r p b sha =
      ((obter_conteudo_arquivo store o r p (some b)).1, sha) := by
  unfold shaLookup
  rw [if_neg (by simp [hsha])]
  rcases hres : obter_conteudo_arquivo store o r p (some b) with ⟨c2, res⟩
  rw [hres] at hf
  dsimp only at hf
  subst hf
  rfl

/-- C6 counterexample: the file `a.txt` exists with fingerprint `s1`; a
single-file write with no fingerprint supplied does not fail with any
conflict — it is silently converted into an update that sends the fetched
fingerprint and succeeds. -/
theorem C6_counterexample :
    (atualizar_arquivo storeRoundtrip "o" "r" "a.txt" "novo" "msg" (some "main") none).2 =
      AtualizarResultado.ok "Arquivo \x27a.txt\x27 atualizado com sucesso" "c1" "u1" "a.txt"
        "a.txt" "s1" "u2" ∧
    Call.putContents "o" "r" "a.txt"
        { message := "msg", content := b64encode (pyEncodeUtf8 "novo"), branch := "main",
          sha := some "s1" } ∈
      (atualizar_arquivo storeRoundtrip "o" "r" "a.txt" "novo" "msg" (some "main") none).1 :=
  ⟨rfl, by decide⟩

/-- C6 amended: with no fingerprint supplied, the operation first reads the
file.  If the read finds it, the write proceeds as an update carrying the
fetched fingerprint (never a conflict failure).  Only if the read finds
nothing is a create attempted, with no fingerprint sent; if the store then
rejects it (e.g. because the file was created concurrently), the operation
returns the unclassified failure envelope, not a Conflict classification. -/
theorem C6_create_update_amended (store : Store) (o r p conteudo msg b : String)
    (hb : b ≠ "") (fi : FileInfo) :
    (store.contents p b = Except.ok (ContentsResp.arquivo fi) → fi.type = "file" →
      fi.sha ≠ "" →
      (∃ bytes cps, b64decode fi.content = some bytes ∧ utf8Decode bytes = some cps) →
      ∀ d, Call.putContents o r p d ∈
          (atualizar_arquivo store o r p conteudo msg (some b) none).1 →
        d.sha = some fi.sha) ∧
    (∀ e e2, store.contents p b = Except.error e →
      store.putFile p
          { message := msg, content := b64encode (pyEncodeUtf8 conteudo), branch := b,
            sha := none } = Except.error e2 →
      (atualizar_arquivo store o r p conteudo msg (some b) none).2 =
        AtualizarResultado.falha ("Erro ao atualizar arquivo: " ++ e2) ∧
      Call.putContents o r p
          { message := msg, content := b64encode (pyEncodeUtf8 conteudo), branch := b,
            sha := none } ∈
        (atualizar_arquivo store o r p conteudo msg (some b) none).1) := by
  constructor
  · intro hc ht hne ⟨bytes, cps, hb64, hu⟩ d hd
    unfold atualizar_arquivo at hd
    rw [resolverBranch_truthy store o r (some b) (truthy_some hb)] at hd
    dsimp only [Option.getD_some] at hd
    rw [shaLookup_ok store o r p b none rfl hb fi hc ht bytes cps hb64 hu] at hd
    dsimp only at hd
    have htr : truthy (some fi.sha) = true := by simp [truthy, hne]
    simp only [htr, eq_self_iff_true, if_true] at hd
    split at hd <;>
      (simp only [List.nil_append, List.mem_append, List.mem_cons, List.mem_singleton,
        List.not_mem_nil, or_false] at hd
       rcases hd with hd | hd
       · simp at hd
       · injection hd with h1 h2 h3 h4
         rw [h4])
  · intro e e2 hc hput
    unfold atualizar_arquivo
    rw [resolverBranch_truthy store o r (some b) (truthy_some hb)]
    dsimp only [Option.getD_some]
    rw [shaLookup_erro store o r p b none rfl hb e hc]
    dsimp only
    rw [show (if truthy (none : Option String) = true then (none : Option String) else none)
        = none from rfl]
    rw [hput]
    exact ⟨rfl, by simp⟩

/-- A store with no file and a `PUT` that fails (e.g. the file appeared
between the read and the write). -/
def storePutFalha : Store := { storeDemo with
  putFile := fun _ _ => Except.error "422 Client Error: Unprocessable Entity" }

/-- Witness for C6 amended: at a store where `a.txt` exists, the no-fingerprint
write sends the fetched fingerprint `s1`; at a store where the read finds
nothing and the `PUT` is rejected, the result is the unclassified failure
envelope and the `PUT` carried no fingerprint. -/
theorem C6_create_update_amended_witness :
    PutData.sha
        { message := "msg", content := b64encode (pyEncodeUtf8 "novo"),
          branch := "main", sha := some "s1" } = some fiRoundtrip.sha ∧
    ((atualizar_arquivo storePutFalha "o" "r" "novo.txt" "c" "m" (some "main") none).2 =
        AtualizarResultado.falha
          "Erro ao atualizar arquivo: 422 Client Error: Unprocessable Entity" ∧
      Call.putContents "o" "r" "novo.txt"
          { message := "m", content := b64encode (pyEncodeUtf8 "c"), branch := "main",
            sha := none } ∈
        (atualizar_arquivo storePutFalha "o" "r" "novo.txt" "c" "m" (some "main") none).1) :=
  ⟨(C6_create_update_amended storeRoundtrip "o" "r" "a.txt" "novo" "msg" "main" (by decide)
      fiRoundtrip).1 rfl rfl (by decide) ⟨_, _, rfl, rfl⟩
    { message := "msg", content := b64encode (pyEncodeUtf8 "novo"),
      branch := "main", sha := some "s1" } (by decide),
   (C6_create_update_amended storePutFalha "o" "r" "novo.txt" "c" "m" "main" (by decide)
      fiRoundtrip).2 "404 Client Error" "422 Client Error: Unprocessable Entity" rfl rfl⟩

/-! ### C7 -/

/-- C7 counterexample: the file `f.bin` exists (type `file`, fingerprint
`sbin`) but its stored bytes are not valid UTF-8.  A no-fingerprint update of
this file performs the read, yet the read\x27s decode failure is swallowed, the
fingerprint the store holds is discarded, and the `PUT` is sent with no `sha`
at all — an unguarded write that even reports the file as created.  This
refutes "the operation sends the fingerprint obtained by that read" for an
in-scope run. -/
theorem C7_counterexample :
    storeNaoUtf8.contents "f.bin" "main" = Except.ok (ContentsResp.arquivo fiNaoUtf8) ∧
    fiNaoUtf8.type = "file" ∧ fiNaoUtf8.sha = "sbin" ∧
    (atualizar_arquivo storeNaoUtf8 "o" "r" "f.bin" "novo" "msg" (some "main") none).1 =
      [Call.getContents "o" "r" "f.bin" "main",
       Call.putContents "o" "r" "f.bin"
         { message := "msg", content := b64encode (pyEncodeUtf8 "novo"), branch := "main",
           sha := none }] ∧
    (atualizar_arquivo storeNaoUtf8 "o" "r" "f.bin" "novo" "msg" (some "main") none).2 =
      AtualizarResultado.ok "Arquivo \x27f.bin\x27 criado com sucesso" "c1" "u1" "f.bin"
        "f.bin" "s1" "u2" :=
  ⟨rfl, rfl, rfl, rfl, rfl⟩

/-- C7 amended: fingerprint handling of the single-file update.  If the caller
supplied a fingerprint, it is passed through to the mutating call unchanged
and no read is performed (the trace is exactly the one `PUT`).  If the caller
supplied none, the run performs exactly one read immediately before the
mutating call; when that read succeeds, the `PUT` carries the fingerprint the
read returned — but when the read returns its failure dict (file absent, or
present with undecodable content, see the counterexample), the failure is
swallowed and the `PUT` is sent with no fingerprint at all. -/
theorem C7_fingerprint_amended (store : Store) (o r p conteudo msg b : String) (hb : b ≠ "") :
    (∀ s, s ≠ "" →
      (atualizar_arquivo store o r p conteudo msg (some b) (some s)).1 =
        [Call.putContents o r p
          { message := msg, content := b64encode (pyEncodeUtf8 conteudo), branch := b,
            sha := some s }]) ∧
    (∀ fi bytes cps, store.contents p b = Except.ok (ContentsResp.arquivo fi) →
      fi.type = "file" → b64decode fi.content = some bytes → utf8Decode bytes = some cps →
      fi.sha ≠ "" →
      (atualizar_arquivo store o r p conteudo msg (some b) none).1 =
        [Call.getContents o r p b,
         Call.putContents o r p
           { message := msg, content := b64encode (pyEncodeUtf8 conteudo), branch := b,
             sha := some fi.sha }]) ∧
    (∀ m, (obter_conteudo_arquivo store o r p (some b)).2 = ObterResultado.falha m →
      (atualizar_arquivo store o r p conteudo msg (some b) none).1 =
        (obter_conteudo_arquivo store o r p (some b)).1 ++
        [Call.putContents o r p
          { message := msg, content := b64encode (pyEncodeUtf8 conteudo), branch := b,
            sha := none }]) := by
  refine ⟨?_, ?_, ?_⟩
  · intro s hs
    have hts : truthy (some s) = true := by simp [truthy, hs]
    unfold atualizar_arquivo
    rw [resolverBranch_truthy store o r (some b) (truthy_some hb)]
    dsimp only [Option.getD_some]
    rw [shaLookup_truthy store o r p b (some s) hts]
    dsimp only
    simp only [hts, if_true]
    split <;> simp
  · intro fi bytes cps hc ht hb64 hu hne
    have htr : truthy (some fi.sha) = true := by simp [truthy, hne]
    unfold atualizar_arquivo
    rw [resolverBranch_truthy store o r (some b) (truthy_some hb)]
    dsimp only [Option.getD_some]
    rw [shaLookup_ok store o r p b none rfl hb fi hc ht bytes cps hb64 hu]
    dsimp only
    simp only [htr, if_true]
    split <;> simp
  · intro m hm
    unfold atualizar_arquivo
    rw [resolverBranch_truthy store o r (some b) (truthy_some hb)]
    dsimp only [Option.getD_some]
    rw [shaLookup_falha store o r p b none rfl m hm]
    dsimp only
    rw [show (if truthy (none : Option String) = true then (none : Option String) else none)
        = none from rfl]
    split <;> simp

/-- Witness for C7 amended: with a supplied fingerprint the trace is the single
`PUT` carrying it; with none supplied and a readable file the trace is one read
then the `PUT` carrying the read fingerprint `s1`; with none supplied and an
existing but undecodable file the `PUT` follows the read carrying no
fingerprint. -/
theorem C7_fingerprint_amended_witness :
    (atualizar_arquivo storeRoundtrip "o" "r" "a.txt" "novo" "msg" (some "main")
        (some "scaller")).1 =
      [Call.putContents "o" "r" "a.txt"
        { message := "msg", content := b64encode (pyEncodeUtf8 "novo"), branch := "main",
          sha := some "scaller" }] ∧
    (atualizar_arquivo storeRoundtrip "o" "r" "a.txt" "novo" "msg" (some "main") none).1 =
      [Call.getContents "o" "r" "a.txt" "main",
       Call.putContents "o" "r" "a.txt"
         { message := "msg", content := b64encode (pyEncodeUtf8 "novo"), branch := "main",
           sha := some fiRoundtrip.sha }] ∧
    (atualizar_arquivo storeNaoUtf8 "o" "r" "f.bin" "novo" "msg" (some "main") none).1 =
      (obter_conteudo_arquivo storeNaoUtf8 "o" "r" "f.bin" (some "main")).1 ++
      [Call.putContents "o" "r" "f.bin"
        { message := "msg", content := b64encode (pyEncodeUtf8 "novo"), branch := "main",
          sha := none }] :=
  ⟨(C7_fingerprint_amended storeRoundtrip "o" "r" "a.txt" "novo" "msg" "main" (by decide)).1
    "scaller" (by decide),
   (C7_fingerprint_amended storeRoundtrip "o" "r" "a.txt" "novo" "msg" "main" (by decide)).2.1
    fiRoundtrip _ _ rfl rfl rfl rfl (by decide),
   (C7_fingerprint_amended storeNaoUtf8 "o" "r" "f.bin" "novo" "msg" "main" (by decide)).2.2
    ("Erro ao obter conteúdo do arquivo: " ++ unicodeErroMsg) rfl⟩

/-! ### C8 -/

/-- When `obter_conteudo_arquivo` succeeds, its trace is the branch resolution
reads followed by exactly one contents read of the branch reported in the
result. -/
theorem obter_ok_trace (store : Store) (o r p : String) (br : Option String)
    (n c2 : String) (t : Nat) (s co u fb : String)
    (h : (obter_conteudo_arquivo store o r p br).2 =
      ObterResultado.ok n c2 t s co u fb) :
    (obter_conteudo_arquivo store o r p br).1 =
      (resolverBranch store o r br).1 ++ [Call.getContents o r p fb] := by
  unfold obter_conteudo_arquivo at h ⊢
  rcases hres : resolverBranch store o r br with ⟨rcalls, rb⟩
  rw [hres] at h
  rcases rb with e | b
  · simp at h
  · dsimp only at h ⊢
    rcases hcon : store.contents p b with e | resp <;> rw [hcon] at h
    · simp at h
    · rcases resp with f | l
      · dsimp only at h ⊢
        split at h
        · simp at h
        · rcases hd : b64decode f.content with _ | bytes <;> rw [hd] at h
          · simp at h
          · dsimp only at h ⊢
            rcases hu : utf8Decode bytes with _ | cps <;> rw [hu] at h
            · simp at h
            · dsimp only at h
              injection h with h1 h2 h3 h4 h5 h6 h7
              rw [h7]
              split
              · rfl
              · rfl
      · simp at h

/-- C8 counterexample: deleting a file whose preliminary read fails returns
the read\x27s failure envelope — only the boolean flag and a message, carrying
no `NotFound` classification. -/
theorem C8_counterexample :
    (excluir_arquivo storeDemo "o" "r" "a.txt" "m" (some "main")).2 =
      ExcluirResultado.falha "Erro ao obter conteúdo do arquivo: 404 Client Error" ∧
    ExcluirResultado.chaves
        (ExcluirResultado.falha "Erro ao obter conteúdo do arquivo: 404 Client Error") =
      ["sucesso", "mensagem"] ∧
    ∀ c : Classificacao, ¬ falhaCarregaClassificacao ["sucesso", "mensagem"]
      "Erro ao obter conteúdo do arquivo: 404 Client Error" c := by
  refine ⟨rfl, rfl, ?_⟩
  intro c
  cases c <;> simp only [falhaCarregaClassificacao] <;> decide

/-- C8 amended: a content read of the target file always comes first.  If the
read does not succeed, the operation returns the read\x27s own (unclassified)
failure envelope and issues no mutating call; if it succeeds, exactly one
`DELETE` follows the read, carrying the fingerprint obtained by that read. -/
theorem C8_delete_read_first (store : Store) (o r p m : String) (br : Option String) :
    (∀ msg2, (obter_conteudo_arquivo store o r p br).2 = ObterResultado.falha msg2 →
      excluir_arquivo store o r p m br =
        ((obter_conteudo_arquivo store o r p br).1, ExcluirResultado.falha msg2) ∧
      ∀ dd, Call.deleteContents o r p dd ∉ (obter_conteudo_arquivo store o r p br).1) ∧
    (∀ n c2 t s co u fb, (obter_conteudo_arquivo store o r p br).2 =
        ObterResultado.ok n c2 t s co u fb →
      ∃ d, (excluir_arquivo store o r p m br).1 =
          (resolverBranch store o r br).1 ++
            [Call.getContents o r p fb, Call.deleteContents o r p d] ∧
        d.sha = s) := by
  constructor
  · intro msg2 h
    constructor
    · unfold excluir_arquivo
      rcases hob : obter_conteudo_arquivo store o r p br with ⟨c1, res⟩
      rw [hob] at h
      dsimp only at h
      rw [h]
    · intro dd hdd
      rcases obter_calls store o r p br _ hdd with hh | ⟨b2, hh⟩ <;> simp at hh
  · intro n c2 t s co u fb h
    have htr := obter_ok_trace store o r p br n c2 t s co u fb h
    unfold excluir_arquivo
    rcases hob : obter_conteudo_arquivo store o r p br with ⟨c1, res⟩
    rw [hob] at h htr
    dsimp only at h htr
    rw [h]
    dsimp only
    refine ⟨⟨m, s, if truthy br = true then br.getD "" else fb⟩, ?_, rfl⟩
    split <;>
      (dsimp only
       rw [htr]
       simp)

/-- Witness for C8: at a store with no file the delete returns the read
failure envelope; at a store with the file, the trace is read then delete
carrying the read fingerprint. -/
theorem C8_delete_read_first_witness :
    excluir_arquivo storeDemo "o" "r" "a.txt" "m" (some "main") =
      ((obter_conteudo_arquivo storeDemo "o" "r" "a.txt" (some "main")).1,
       ExcluirResultado.falha "Erro ao obter conteúdo do arquivo: 404 Client Error") ∧
    ∃ d, (excluir_arquivo storeRoundtrip "o" "r" "a.txt" "m" (some "main")).1 =
        (resolverBranch storeRoundtrip "o" "r" (some "main")).1 ++
          [Call.getContents "o" "r" "a.txt" "main",
           Call.deleteContents "o" "r" "a.txt" d] ∧
      d.sha = "s1" :=
  ⟨((C8_delete_read_first storeDemo "o" "r" "a.txt" "m" (some "main")).1
    "Erro ao obter conteúdo do arquivo: 404 Client Error" rfl).1,
   (C8_delete_read_first storeRoundtrip "o" "r" "a.txt" "m" (some "main")).2
    "a.txt" "a.txt" 4 "s1" conteudoDemo "u" "main" rfl⟩

/-! ### C9 and C10 -/

/-- When the branch resolves, `listar_arquivos` issues the resolution reads
then one contents read of the resolved branch. -/
theorem listar_trace_ok (store : Store) (o r p : String) (br : Option String) (b : String)
    (hok : (resolverBranch store o r br).2 = Except.ok b) :
    (listar_arquivos store o r p br).1 =
      (resolverBranch store o r br).1 ++ [Call.getContents o r p b] := by
  unfold listar_arquivos
  rcases hres : resolverBranch store o r br with ⟨rcalls, rb⟩
  rw [hres] at hok
  dsimp only at hok
  subst hok
  dsimp only
  rcases store.contents p b with e | resp <;> dsimp only

/-- When the branch resolves, `obter_conteudo_arquivo` issues the resolution
reads then one contents read of the resolved branch. -/
theorem obter_trace_ok (store : Store) (o r p : String) (br : Option String) (b : String)
    (hok : (resolverBranch store o r br).2 = Except.ok b) :
    (obter_conteudo_arquivo store o r p br).1 =
      (resolverBranch store o r br).1 ++ [Call.getContents o r p b] := by
  unfold obter_conteudo_arquivo
  rcases hres : resolverBranch store o r br with ⟨rcalls, rb⟩
  rw [hres] at hok
  dsimp only at hok
  subst hok
  dsimp only
  rcases store.contents p b with e | resp
  · rfl
  · rcases resp with f | l
    · dsimp only
      split
      · rfl
      · rcases b64decode f.content with _ | bytes
        · rfl
        · dsimp only
          rcases utf8Decode bytes with _ | cps <;> rfl
    · rfl

/-- When the branch resolves, `atualizar_arquivo` issues the resolution reads,
the fingerprint lookup reads, and one `PUT` whose payload targets the resolved
branch. -/
theorem atualizar_trace_ok (store : Store) (o r p conteudo msg : String)
    (br sha : Option String) (b : String)
    (hok : (resolverBranch store o r br).2 = Except.ok b) :
    ∃ d, (atualizar_arquivo store o r p conteudo msg br sha).1 =
        (resolverBranch store o r br).1 ++ (shaLookup store o r p b sha).1 ++
          [Call.putContents o r p d] ∧
      d.branch = b := by
  unfold atualizar_arquivo
  rcases hres : resolverBranch store o r br with ⟨rcalls, rb⟩
  rw [hres] at hok
  dsimp only at hok
  subst hok
  dsimp only
  rcases hlk : shaLookup store o r p b sha with ⟨c2, sha2⟩
  dsimp only
  split <;> exact ⟨_, rfl, rfl⟩

/-- When the branch resolves, `criar_commit_multiplo` issues the resolution
reads then the ref read of the resolved branch, then the rest of its
protocol. -/
theorem criar_commit_multiplo_trace_ok (store : Store) (o r msg : String)
    (alts : List Alteracao) (br : Option String) (b : String)
    (hok : (resolverBranch store o r br).2 = Except.ok b) :
    ∃ rest, (criar_commit_multiplo store o r msg alts br).1 =
      (resolverBranch store o r br).1 ++ [Call.getRef o r b] ++ rest := by
  unfold criar_commit_multiplo
  rcases hres : resolverBranch store o r br with ⟨rcalls, rb⟩
  rw [hres] at hok
  dsimp only at hok
  subst hok
  dsimp only
  rcases store.refHead b with e | rs <;> dsimp only
  · exact ⟨[], by simp⟩
  · rcases store.commitObj rs with e | cobj <;> dsimp only
    · exact ⟨[Call.getCommit o r rs], by simp⟩
    · rcases store.createTree _ with e | nts <;> dsimp only
      · exact ⟨[Call.getCommit o r rs,
          Call.postTree o r ⟨cobj.tree_sha, alts.map itemDaAlteracao⟩], by simp⟩
      · rcases store.createCommit _ with e | ncs <;> dsimp only
        · exact ⟨[Call.getCommit o r rs,
            Call.postTree o r ⟨cobj.tree_sha, alts.map itemDaAlteracao⟩,
            Call.postCommit o r ⟨msg, [cobj.sha], nts⟩], by simp⟩
        · rcases store.updateRef _ _ with e | u <;> dsimp only <;>
            exact ⟨[Call.getCommit o r rs,
              Call.postTree o r ⟨cobj.tree_sha, alts.map itemDaAlteracao⟩,
              Call.postCommit o r ⟨msg, [cobj.sha], nts⟩,
              Call.patchRef o r b ⟨ncs, false⟩], by simp⟩

/-- When the base branch resolves, `criar_branch` issues the resolution reads
then the ref read of the resolved base branch, then possibly the ref
creation. -/
theorem criar_branch_trace_ok (store : Store) (o r nome : String) (br : Option String)
    (b : String) (hok : (resolverBranch store o r br).2 = Except.ok b) :
    ∃ rest, (criar_branch store o r nome br).1 =
      (resolverBranch store o r br).1 ++ [Call.getRef o r b] ++ rest := by
  unfold criar_branch
  rcases hres : resolverBranch store o r br with ⟨rcalls, rb⟩
  rw [hres] at hok
  dsimp only at hok
  subst hok
  dsimp only
  rcases store.refHead b with e | rs <;> dsimp only
  · exact ⟨[], by simp⟩
  · rcases store.createRef _ with e | u <;> dsimp only <;>
      exact ⟨[Call.postRef o r ⟨"refs/heads/" ++ nome, rs⟩], by simp⟩

/-- C9: omitting the branch makes each operation fetch the repository metadata
as the first call of that very run and target the default branch that this
call-time lookup returned.  The embedding holds no state across calls: the
target branch is a function of the store passed to the call alone, so
instantiating this theorem at two stores whose metadata carry different
default branches shows the two calls target different branches — nothing is
cached.  (`excluir_arquivo` delegates its resolution to the content read it
performs first, see C8.) -/
theorem C9_default_branch_por_chamada (store : Store) (o r p nome conteudo msg : String)
    (alts : List Alteracao) (br sha : Option String) (info : RepoInfo)
    (hbr : truthy br = false) (hinfo : store.repoInfo = Except.ok info) :
    ((listar_arquivos store o r p br).1.head? = some (Call.getRepoInfo o r) ∧
      Call.getContents o r p (info.default_branch.getD "main") ∈
        (listar_arquivos store o r p br).1) ∧
    ((obter_conteudo_arquivo store o r p br).1.head? = some (Call.getRepoInfo o r) ∧
      Call.getContents o r p (info.default_branch.getD "main") ∈
        (obter_conteudo_arquivo store o r p br).1) ∧
    ((atualizar_arquivo store o r p conteudo msg br sha).1.head? =
        some (Call.getRepoInfo o r) ∧
      ∃ d, Call.putContents o r p d ∈ (atualizar_arquivo store o r p conteudo msg br sha).1 ∧
        d.branch = info.default_branch.getD "main") ∧
    ((criar_commit_multiplo store o r msg alts br).1.head? = some (Call.getRepoInfo o r) ∧
      Call.getRef o r (info.default_branch.getD "main") ∈
        (criar_commit_multiplo store o r msg alts br).1) ∧
    ((criar_branch store o r nome br).1.head? = some (Call.getRepoInfo o r) ∧
      Call.getRef o r (info.default_branch.getD "main") ∈
        (criar_branch store o r nome br).1) := by
  have hres := resolverBranch_default store o r br info hbr hinfo
  have hok : (resolverBranch store o r br).2 =
      Except.ok (info.default_branch.getD "main") := by
    rw [hres]
  obtain ⟨da, htra, hdba⟩ := atualizar_trace_ok store o r p conteudo msg br sha _ hok
  obtain ⟨restc, htrc⟩ := criar_commit_multiplo_trace_ok store o r msg alts br _ hok
  obtain ⟨restb, htrb⟩ := criar_branch_trace_ok store o r nome br _ hok
  refine ⟨⟨?_, ?_⟩, ⟨?_, ?_⟩, ⟨?_, ?_⟩, ⟨?_, ?_⟩, ⟨?_, ?_⟩⟩
  · rw [listar_trace_ok store o r p br _ hok, hres]
    rfl
  · rw [listar_trace_ok store o r p br _ hok]
    simp
  · rw [obter_trace_ok store o r p br _ hok, hres]
    rfl
  · rw [obter_trace_ok store o r p br _ hok]
    simp
  · rw [htra, hres]
    rfl
  · exact ⟨da, by rw [htra]; simp, hdba⟩
  · rw [htrc, hres]
    rfl
  · rw [htrc]
    simp
  · rw [htrb, hres]
    rfl
  · rw [htrb]
    simp

/-- Witness for C9: with the branch omitted and a store whose default branch
is `dev`, the listing and the multi-file commit both start with the repo-info
lookup and target `dev`. -/
theorem C9_default_branch_por_chamada_witness :
    ((listar_arquivos storeDemo "o" "r" "p" none).1.head? =
        some (Call.getRepoInfo "o" "r") ∧
      Call.getContents "o" "r" "p" "dev" ∈ (listar_arquivos storeDemo "o" "r" "p" none).1) ∧
    ((criar_commit_multiplo storeDemo "o" "r" "m" [Alteracao.mk "a.txt" "1"] none).1.head? =
        some (Call.getRepoInfo "o" "r") ∧
      Call.getRef "o" "r" "dev" ∈
        (criar_commit_multiplo storeDemo "o" "r" "m" [Alteracao.mk "a.txt" "1"] none).1) :=
  ⟨(C9_default_branch_por_chamada storeDemo "o" "r" "p" "nova" "c" "m"
      [Alteracao.mk "a.txt" "1"] none none ⟨some "dev"⟩ rfl rfl).1,
   (C9_default_branch_por_chamada storeDemo "o" "r" "p" "nova" "c" "m"
      [Alteracao.mk "a.txt" "1"] none none ⟨some "dev"⟩ rfl rfl).2.2.2.1⟩

/-- C10: when the repository metadata has no default-branch field, each of the
five branch-resolving operations does not fail at resolution: it proceeds,
targeting the literal branch name `main`. -/
theorem C10_default_main (store : Store) (o r p nome conteudo msg : String)
    (alts : List Alteracao) (br sha : Option String)
    (hbr : truthy br = false)
    (hinfo : store.repoInfo = Except.ok { default_branch := none }) :
    Call.getContents o r p "main" ∈ (listar_arquivos store o r p br).1 ∧
    Call.getContents o r p "main" ∈ (obter_conteudo_arquivo store o r p br).1 ∧
    (∃ d, Call.putContents o r p d ∈ (atualizar_arquivo store o r p conteudo msg br sha).1 ∧
      d.branch = "main") ∧
    Call.getRef o r "main" ∈ (criar_commit_multiplo store o r msg alts br).1 ∧
    Call.getRef o r "main" ∈ (criar_branch store o r nome br).1 := by
  have hres := resolverBranch_default store o r br ⟨none⟩ hbr hinfo
  have hok : (resolverBranch store o r br).2 = Except.ok "main" := by
    rw [hres]
    rfl
  obtain ⟨da, htra, hdba⟩ := atualizar_trace_ok store o r p conteudo msg br sha _ hok
  obtain ⟨restc, htrc⟩ := criar_commit_multiplo_trace_ok store o r msg alts br _ hok
  obtain ⟨restb, htrb⟩ := criar_branch_trace_ok store o r nome br _ hok
  refine ⟨?_, ?_, ?_, ?_, ?_⟩
  · rw [listar_trace_ok store o r p br _ hok]
    simp
  · rw [obter_trace_ok store o r p br _ hok]
    simp
  · exact ⟨da, by rw [htra]; simp, hdba⟩
  · rw [htrc]
    simp
  · rw [htrb]
    simp

/-- A store whose repository metadata carries no default-branch field. -/
def storeSemDefault : Store := { storeDemo with repoInfo := Except.ok ⟨none⟩ }

/-- Witness for C10: with no default-branch field in the metadata, all five
operations proceed against the branch `main`. -/
theorem C10_default_main_witness :
    Call.getContents "o" "r" "p" "main" ∈
      (listar_arquivos storeSemDefault "o" "r" "p" none).1 ∧
    Call.getContents "o" "r" "p" "main" ∈
      (obter_conteudo_arquivo storeSemDefault "o" "r" "p" none).1 ∧
    (∃ d, Call.putContents "o" "r" "p" d ∈
        (atualizar_arquivo storeSemDefault "o" "r" "p" "c" "m" none none).1 ∧
      d.branch = "main") ∧
    Call.getRef "o" "r" "main" ∈
      (criar_commit_multiplo storeSemDefault "o" "r" "m" [Alteracao.mk "a.txt" "1"] none).1 ∧
    Call.getRef "o" "r" "main" ∈ (criar_branch storeSemDefault "o" "r" "nova" none).1 :=
  C10_default_main storeSemDefault "o" "r" "p" "nova" "c" "m" [Alteracao.mk "a.txt" "1"]
    none none rfl rfl

end McpGit
